import Mathlib

/-!
Verification of the GemForge-MCP request/response pipeline.

The definitions below are a shallow embedding of the repository's
JavaScript/TypeScript sources.  Pure functions become Lean functions;
the filesystem is an explicit association list from paths to file
entries; asynchronous/fallible code returns `Except`; untyped
JavaScript objects (raw SDK responses, formatter inputs) are modelled
as values in an explicit heap of object/array nodes, so that cyclic
object graphs are representable.  External library calls that the code
treats as black boxes (base64 encoding by `Buffer`, `JSON.parse`) are
carried as per-file data in the filesystem model, as noted at each
definition.
-/

namespace GemForge

/-! ## JavaScript string primitives -/

/-- Substring test on character lists: JavaScript `String.prototype.includes`. -/
def charsContains (hay needle : List Char) : Bool :=
  needle.isPrefixOf hay ||
    match hay with
    | [] => false
    | _ :: t => charsContains t needle

/-- JavaScript `s.includes(sub)`. -/
def jsIncludes (s sub : String) : Bool :=
  charsContains s.data sub.data

/-- JavaScript `s.startsWith(pre)`.  (Character-list implementation so the
kernel can evaluate it.) -/
def jsStartsWith (s pre : String) : Bool :=
  pre.data.isPrefixOf s.data

/-- JavaScript `s.endsWith(suf)`. -/
def jsEndsWith (s suf : String) : Bool :=
  suf.data.isSuffixOf s.data

/-- JavaScript `s.slice(n)` / `s.substring(n)` for a character offset. -/
def jsDrop (s : String) (n : Nat) : String :=
  String.mk (s.data.drop n)

/-- JavaScript `s.length` (code points; identical to UTF-16 length on the
ASCII strings this system handles). -/
def jsLength (s : String) : Nat :=
  s.data.length

/-- JavaScript `s.toLowerCase()` (ASCII). -/
def jsToLower (s : String) : String :=
  String.mk (s.data.map Char.toLower)

/-- JavaScript `s.trim()`. -/
def jsTrim (s : String) : String :=
  String.mk (((s.data.dropWhile Char.isWhitespace).reverse.dropWhile
    Char.isWhitespace).reverse)

/-- Split a character list at every occurrence of `c`. -/
def splitOnCharL (c : Char) : List Char → List (List Char)
  | [] => [[]]
  | x :: xs =>
    let r := splitOnCharL c xs
    if x = c then [] :: r
    else
      match r with
      | h :: t => (x :: h) :: t
      | [] => [[x]]

/-- JavaScript `s.split(c)` for a one-character separator. -/
def jsSplitOnChar (s : String) (c : Char) : List String :=
  (splitOnCharL c s.data).map String.mk

/-- `Array.prototype.join(sep)`. -/
def jsJoin (sep : String) (l : List String) : String :=
  String.mk (List.intercalate sep.data (l.map String.data))

/-- Node `path.basename` (POSIX): strip trailing slashes, keep the part after
the last remaining slash. -/
def basenameOf (p : String) : String :=
  let comps := jsSplitOnChar p '/'
  match (comps.reverse.dropWhile (fun c => c = "")) with
  | [] => ""
  | c :: _ => c

/-- Node `path.extname` (POSIX): the substring of the basename from its last
dot, unless that dot is the basename's first character or absent. -/
def extnameOf (p : String) : String :=
  let b := (basenameOf p).data
  let revAfter := b.reverse.takeWhile (fun c => c ≠ '.')
  if b.contains '.' then
    if b.length - revAfter.length - 1 = 0 then ""
    else String.mk ('.' :: revAfter.reverse)
  else ""

/-! ## File classifier (src/dist/utils/file-handler.js) -/

/-- `MIME_TYPES`: the static extension-to-MIME table. -/
def MIME_TYPES : List (String × String) :=
  [(".jpg", "image/jpeg"), (".jpeg", "image/jpeg"), (".png", "image/png"),
   (".gif", "image/gif"), (".webp", "image/webp"), (".svg", "image/svg+xml"),
   (".tiff", "image/tiff"), (".tif", "image/tiff"), (".bmp", "image/bmp"),
   (".pdf", "application/pdf"), (".doc", "application/msword"),
   (".docx", "application/vnd.openxmlformats-officedocument.wordprocessingml.document"),
   (".xls", "application/vnd.ms-excel"),
   (".xlsx", "application/vnd.openxmlformats-officedocument.spreadsheetml.sheet"),
   (".ppt", "application/vnd.ms-powerpoint"),
   (".pptx", "application/vnd.openxmlformats-officedocument.presentationml.presentation"),
   (".odt", "application/vnd.oasis.opendocument.text"),
   (".ods", "application/vnd.oasis.opendocument.spreadsheet"),
   (".odp", "application/vnd.oasis.opendocument.presentation"),
   (".txt", "text/plain"), (".csv", "text/csv"), (".md", "text/markdown"),
   (".html", "text/html"), (".htm", "text/html"),
   (".xml", "text/plain"), (".json", "text/plain"),
   (".yaml", "text/plain"), (".yml", "text/plain"),
   (".js", "text/javascript"), (".ts", "text/typescript"), (".py", "text/x-python"),
   (".java", "text/x-java-source"), (".c", "text/x-c"), (".cpp", "text/x-c++"),
   (".cs", "text/x-csharp"), (".go", "text/x-go"), (".rb", "text/x-ruby"),
   (".php", "application/x-php"), (".astro", "text/html"), (".svelte", "text/html"),
   (".vue", "text/html"), (".tf", "text/plain"), (".tfvars", "text/plain"),
   (".bicep", "text/plain"), (".shader", "text/plain"), (".gd", "text/plain"),
   (".toml", "application/toml"), (".config", "text/plain"),
   (".gitignore", "text/plain"), (".env", "text/plain"),
   (".jsx", "text/javascript"), (".tsx", "text/typescript"),
   (".swift", "text/x-swift"), (".kt", "text/x-kotlin"), (".rs", "text/x-rust"),
   (".scala", "text/x-scala"), (".dart", "text/x-dart"), (".sql", "text/x-sql"),
   (".sh", "text/x-shellscript"), (".bash", "text/x-shellscript"),
   (".ps1", "text/plain"), (".groovy", "text/x-groovy"), (".gradle", "text/x-groovy"),
   (".mp3", "audio/mpeg"), (".wav", "audio/wav"), (".ogg", "audio/ogg"),
   (".flac", "audio/flac"), (".aac", "audio/aac"),
   (".mp4", "video/mp4"), (".webm", "video/webm"), (".avi", "video/x-msvideo"),
   (".mov", "video/quicktime"), (".mkv", "video/x-matroska"),
   (".zip", "application/zip"), (".rar", "application/x-rar-compressed"),
   (".tar", "application/x-tar"), (".gz", "application/gzip"),
   (".7z", "application/x-7z-compressed"),
   (".bin", "application/octet-stream"), (".exe", "application/x-msdownload"),
   (".wasm", "application/wasm")]

/-- `FILE_TYPE_CATEGORIES`: the static MIME-to-category table. -/
def FILE_TYPE_CATEGORIES : List (String × String) :=
  [("image/jpeg", "image"), ("image/png", "image"), ("image/gif", "image"),
   ("image/webp", "image"), ("image/svg+xml", "image"), ("image/tiff", "image"),
   ("image/bmp", "image"),
   ("application/pdf", "document"), ("application/msword", "document"),
   ("application/vnd.openxmlformats-officedocument.wordprocessingml.document", "document"),
   ("application/vnd.ms-excel", "spreadsheet"),
   ("application/vnd.openxmlformats-officedocument.spreadsheetml.sheet", "spreadsheet"),
   ("application/vnd.ms-powerpoint", "presentation"),
   ("application/vnd.openxmlformats-officedocument.presentationml.presentation", "presentation"),
   ("application/vnd.oasis.opendocument.text", "document"),
   ("application/vnd.oasis.opendocument.spreadsheet", "spreadsheet"),
   ("application/vnd.oasis.opendocument.presentation", "presentation"),
   ("text/plain", "text"), ("text/csv", "data"), ("text/markdown", "text"),
   ("text/html", "code"), ("application/xml", "code"), ("text/plain+xml", "text"),
   ("application/json", "data"), ("application/x-yaml", "data"),
   ("application/toml", "data"),
   ("text/javascript", "code"), ("text/typescript", "code"), ("text/x-python", "code"),
   ("text/x-java-source", "code"), ("text/x-c", "code"), ("text/x-c++", "code"),
   ("text/x-csharp", "code"), ("text/x-go", "code"), ("text/x-ruby", "code"),
   ("application/x-php", "code"), ("text/x-swift", "code"), ("text/x-kotlin", "code"),
   ("text/x-rust", "code"), ("text/x-scala", "code"), ("text/x-dart", "code"),
   ("text/x-sql", "code"), ("text/x-shellscript", "code"), ("text/x-groovy", "code"),
   ("audio/mpeg", "audio"), ("audio/wav", "audio"), ("audio/ogg", "audio"),
   ("audio/flac", "audio"), ("audio/aac", "audio"),
   ("video/mp4", "video"), ("video/webm", "video"), ("video/x-msvideo", "video"),
   ("video/quicktime", "video"), ("video/x-matroska", "video"),
   ("application/zip", "archive"), ("application/x-rar-compressed", "archive"),
   ("application/x-tar", "archive"), ("application/gzip", "archive"),
   ("application/x-7z-compressed", "archive"),
   ("application/octet-stream", "binary")]

/-- `isUrl` from file-handler.js. -/
def isUrl (p : String) : Bool :=
  jsStartsWith p ("http://") || jsStartsWith p ("https://") || jsStartsWith p ("gs://")

/-- The pathname of `new URL(p)` for an `http://` or `https://` string, or
`none` when the constructor throws.  Modelled for simple URLs: the scheme is
stripped, an empty remainder is invalid, and the pathname is everything from
the first slash after the host up to a query or fragment delimiter. -/
def httpUrlPathname (p : String) : Option String :=
  let rest := if jsStartsWith p ("http://") then jsDrop p 7 else jsDrop p 8
  if rest = "" then none
  else
    let noFrag := (jsSplitOnChar rest '#').headD ("")
    let noQuery := (jsSplitOnChar noFrag '?').headD ("")
    match jsSplitOnChar noQuery '/' with
    | [] => some ("/")
    | host :: pathComps =>
      if host = "" then none
      else if pathComps = [] then some ("/")
      else some ("/" ++ jsJoin ("/") pathComps)

/-- Extension lookup with the octet-stream default shared by every branch of
`getMimeType`. -/
def mimeFromExt (path : String) : String :=
  ((MIME_TYPES.lookup (jsToLower (extnameOf path))).getD ("application/octet-stream"))

/-- `getMimeType` from file-handler.js. -/
def getMimeType (filePath : String) : Option String :=
  if filePath = "" then none
  else if isUrl filePath then
    (if jsStartsWith filePath ("gs://") then
      let parts := jsSplitOnChar (jsDrop filePath 5) '/'
      let urlPath := if parts.length > 1 then jsJoin ("/") parts.tail else ""
      some (mimeFromExt urlPath)
    else
      match httpUrlPathname filePath with
      | some urlPath => some (mimeFromExt urlPath)
      | none => some ("application/octet-stream"))
  else
    some (mimeFromExt filePath)

/-- `getFileTypeCategory` from file-handler.js. -/
def getFileTypeCategory (filePathOrMimeType : String) : String :=
  if jsIncludes filePathOrMimeType ("/") then
    (FILE_TYPE_CATEGORIES.lookup filePathOrMimeType).getD ("unknown")
  else
    match getMimeType filePathOrMimeType with
    | none => "unknown"
    | some mimeType => (FILE_TYPE_CATEGORIES.lookup mimeType).getD ("unknown")

/-! ## Filesystem model and content loader (src/dist/utils/file-handler.js)

The filesystem is an association list from paths to file entries.  `b64`
stands for the base64 rendering `Buffer.toString('base64')` would produce for
the entry's bytes, and `prettyJson` for the result of
`JSON.stringify(JSON.parse(content), null, 2)` (`none` when parsing throws);
both are external library computations carried as data. -/

structure FileEntry where
  content : String
  b64 : String
  prettyJson : Option String
deriving DecidableEq, Repr

abbrev FS := List (String × FileEntry)

/-- `fileExists` from file-handler.js (an `fs.access` probe). -/
def fileExists (fs : FS) (p : String) : Bool :=
  (fs.lookup p).isSome

/-- `readFileAsBase64` from file-handler.js; the missing-file branch raises
the rewrapped ENOENT error. -/
def readFileAsBase64 (fs : FS) (p : String) : Except String String :=
  match fs.lookup p with
  | some e => Except.ok e.b64
  | none => Except.error ("File not found: " ++ p)

/-- A Gemini content part: text, inline base64 data, or a file-URI
reference. -/
inductive Part where
  | ptext (text : String)
  | pinline (mimeType data : String)
  | pfile (mimeType fileUri : String)
deriving DecidableEq, Repr

/-- `createFilePart` from file-handler.js: URL inputs become `fileData`
parts, local files inline base64 data, and any error is absorbed into an
error-text part. -/
def createFilePart (fs : FS) (filePath : String) : Part :=
  let mimeType := (getMimeType filePath).getD ("application/octet-stream")
  if isUrl filePath then
    Part.pfile mimeType filePath
  else
    match fs.lookup filePath with
    | some e => Part.pinline mimeType e.b64
    | none => Part.ptext ("[Error processing file: " ++ filePath ++ "]")

/-- `createFilePartsBatch` from file-handler.js: each path is checked for
existence first; a missing path contributes an error-text part and the loop
continues with the next path. -/
def createFilePartsBatch (fs : FS) (filePaths : List String) : List Part :=
  filePaths.map (fun filePath =>
    if fileExists fs filePath then createFilePart fs filePath
    else Part.ptext ("[Error: File not found: " ++ filePath ++ "]"))

/-- Whether a part is a text part (the shape error parts take). -/
def Part.isTextPart : Part → Bool
  | Part.ptext _ => true
  | _ => false

/-- Whether a part carries file data (inline base64 or a file URI). -/
def Part.isDataPart : Part → Bool
  | Part.pinline _ _ => true
  | Part.pfile _ _ => true
  | _ => false

/-! ## Untyped JavaScript values

Raw SDK responses and the formatter's `response: any` argument are untyped
object graphs.  They are modelled as values over an explicit heap of object
and array nodes, so that cyclic graphs (an object reachable from itself) are
representable.  A `vfn` value stands for a function-valued property; calling
it either returns a string or throws an error carrying a message. -/

inductive FnRet where
  | fnOk (s : String)
  | fnThrow (message : String)
deriving DecidableEq, Repr

inductive HVal where
  | vstr (s : String)
  | vnum (n : Int)
  | vbool (b : Bool)
  | vnull
  | vundef
  | vfn (ret : FnRet)
  | vobj (id : Nat)
  | varr (id : Nat)
deriving DecidableEq, Repr

structure Heap where
  objFields : Nat → List (String × HVal)
  arrElems : Nat → List HVal
  nextId : Nat

/-- Property access `v[k]`; `undefined` on anything without that property.
Call sites in the source either guard with `?.`/truthiness or sit inside a
`try` whose handler makes a thrown access indistinguishable from an
`undefined` result, so the throwing cases of JavaScript member access are not
distinguished here. -/
def Heap.getField (H : Heap) (v : HVal) (k : String) : HVal :=
  match v with
  | HVal.vobj id => ((H.objFields id).lookup k).getD HVal.vundef
  | HVal.varr id =>
    if k = "length" then HVal.vnum (H.arrElems id).length else HVal.vundef
  | HVal.vstr s =>
    if k = "length" then HVal.vnum (jsLength s) else HVal.vundef
  | _ => HVal.vundef

/-- Index access `v[i]`. -/
def Heap.getIndex (H : Heap) (v : HVal) (i : Nat) : HVal :=
  match v with
  | HVal.varr id => (H.arrElems id).getD i HVal.vundef
  | HVal.vstr s =>
    (match s.data.get? i with
     | some c => HVal.vstr (String.mk [c])
     | none => HVal.vundef)
  | HVal.vobj id => ((H.objFields id).lookup (toString i)).getD HVal.vundef
  | _ => HVal.vundef

/-- JavaScript truthiness. -/
def truthy : HVal → Bool
  | HVal.vstr s => s ≠ ""
  | HVal.vnum n => n ≠ 0
  | HVal.vbool b => b
  | HVal.vnull => false
  | HVal.vundef => false
  | _ => true

/-- `Array.isArray`. -/
def isArray : HVal → Bool
  | HVal.varr _ => true
  | _ => false

/-- `v > 0` under JavaScript comparison, for the shapes that occur here
(numbers compare numerically, `undefined`/objects are not greater than 0). -/
def jsGtZero : HVal → Bool
  | HVal.vnum n => n > 0
  | _ => false

/-- String interpolation `${v}` (bounded for arrays; object graphs display as
`[object Object]` exactly as in JavaScript). -/
def jsToDisplayF (H : Heap) : Nat → HVal → String
  | 0, _ => ""
  | _ + 1, HVal.vstr s => s
  | _ + 1, HVal.vnum n => toString n
  | _ + 1, HVal.vbool b => if b then "true" else "false"
  | _ + 1, HVal.vnull => "null"
  | _ + 1, HVal.vundef => "undefined"
  | _ + 1, HVal.vfn _ => "function"
  | _ + 1, HVal.vobj _ => "[object Object]"
  | f + 1, HVal.varr id => jsJoin (",") ((H.arrElems id).map (jsToDisplayF H f))

def jsToDisplay (H : Heap) (v : HVal) : String := jsToDisplayF H 8 v

/-- `JSON.stringify(v, null, 2)`, modelled as a bounded compact printer: the
source only splices this output into human-readable text and no verified
property inspects it, so the 2-space indentation layout (and the exception a
cyclic value would raise in JavaScript) is not reproduced. -/
def jsonStringifyF (H : Heap) : Nat → HVal → String
  | 0, _ => ""
  | _ + 1, HVal.vstr s => "\"" ++ s ++ "\""
  | _ + 1, HVal.vnum n => toString n
  | _ + 1, HVal.vbool b => if b then "true" else "false"
  | _ + 1, HVal.vnull => "null"
  | _ + 1, HVal.vundef => "null"
  | _ + 1, HVal.vfn _ => "null"
  | f + 1, HVal.varr id =>
    "[" ++ jsJoin (",") ((H.arrElems id).map (jsonStringifyF H f)) ++ "]"
  | f + 1, HVal.vobj id =>
    "\x7b" ++
      jsJoin (",") ((H.objFields id).map
        (fun kv => "\"" ++ kv.1 ++ "\":" ++ jsonStringifyF H f kv.2)) ++ "\x7d"

def jsonStringify (H : Heap) (v : HVal) : String := jsonStringifyF H 32 v

/-- Whether `JSON.stringify` throws `TypeError: Converting circular structure
to JSON` on `v`: the serializer keeps the stack of object/array nodes it is
currently inside and throws on re-entering one; function-valued properties
are skipped, so no cycle runs through a `vfn`.  Bounded by the same fuel as
the printers. -/
def stringifyThrowsF (H : Heap) : Nat → List (Bool × Nat) → HVal → Bool
  | 0, _, _ => false
  | f + 1, stack, HVal.vobj id =>
    if (true, id) ∈ stack then true
    else (H.objFields id).any (fun kv =>
      stringifyThrowsF H f ((true, id) :: stack) kv.2)
  | f + 1, stack, HVal.varr id =>
    if (false, id) ∈ stack then true
    else (H.arrElems id).any (fun e =>
      stringifyThrowsF H f ((false, id) :: stack) e)
  | _ + 1, _, _ => false

def jsonStringifyThrows (H : Heap) (v : HVal) : Bool :=
  stringifyThrowsF H 32 [] v

/-- The `for (const key in obj)` view of a node: an object's own fields, or
an array's elements under their index keys (arrays are objects in
JavaScript).  Empty for every non-object value. -/
def nodeEntries (H : Heap) : HVal → List (String × HVal)
  | HVal.vobj id => H.objFields id
  | HVal.varr id => (H.arrElems id).enum.map (fun p => (toString p.1, p.2))
  | _ => []

/-! ## Response formatter (src/src/utils/response-formatter.ts) -/

/-- Depth-bounded scan body of `findTextProperties`: `fuel` counts the object
levels that may still be processed (0 processes nothing), so the
`currentDepth > maxDepth` guard of the source becomes fuel exhaustion.  The
`for (const key in obj)` loop appends, in key order, a `text` key holding a
string of trimmed length above 10, and the one-level-deeper scan of any
object-valued entry. -/
def findTextPropertiesAux (H : Heap) : Nat → HVal → List String
  | 0, _ => []
  | fuel + 1, v =>
    (nodeEntries H v).flatMap (fun kv =>
      match kv.2 with
      | HVal.vstr s =>
        if kv.1 = "text" ∧ jsLength (jsTrim s) > 10 then [s] else []
      | HVal.vobj _ => findTextPropertiesAux H fuel kv.2
      | HVal.varr _ => findTextPropertiesAux H fuel kv.2
      | _ => [])

/-- `findTextProperties(obj, maxDepth = 3, currentDepth = 0)` from
response-formatter.ts. -/
def findTextProperties (H : Heap) (obj : HVal) (maxDepth : Nat := 3)
    (currentDepth : Nat := 0) : List String :=
  findTextPropertiesAux H (maxDepth + 1 - currentDepth) obj

/-- `extractMainContent` after the top-level direct-text probe. -/
def extractMainContentRest (H : Heap) (response : HVal) : String :=
  let candidates := H.getField response "candidates"
  let fromCandidate : Option String :=
    if jsGtZero (H.getField candidates "length") then
      let candidate := H.getIndex candidates 0
      -- text directly on the candidate
      (match H.getField candidate "text" with
       | HVal.vstr s =>
         if s ≠ "" ∧ jsLength (jsTrim s) > 0 then some s else none
       | _ => none).orElse (fun _ =>
      -- vision response carrying bounding boxes
      let content := H.getField candidate "content"
      let boundingBoxes := H.getField content "boundingBoxes"
      if truthy boundingBoxes ∧ isArray boundingBoxes then
        let parts := H.getField content "parts"
        (match parts with
         | HVal.varr pid =>
           let elems := H.arrElems pid
           let longTextParts := elems.filterMap (fun part =>
             match H.getField part "text" with
             | HVal.vstr s => if jsLength (jsTrim s) > 100 then some s else none
             | _ => none)
           if longTextParts ≠ [] then some (jsJoin ("\n\n") longTextParts)
           else
             let descriptiveParts := elems.filterMap (fun part =>
               match H.getField part "text" with
               | HVal.vstr s =>
                 let t := jsTrim s
                 if jsLength t > 20 ∧ ¬ jsStartsWith t ("\x7b") ∧
                     ¬ jsStartsWith t ("[") then some s else none
               | _ => none)
             if descriptiveParts ≠ [] then some (jsJoin ("\n\n") descriptiveParts)
             else
               let allTextParts := elems.filterMap (fun part =>
                 match H.getField part "text" with
                 | HVal.vstr s => if jsLength (jsTrim s) > 0 then some s else none
                 | _ => none)
               if allTextParts ≠ [] then some (jsJoin ("\n\n") allTextParts)
               else some ("")
         | _ => some (""))
      else
        -- standard text response: join the string parts
        (match H.getField content "parts" with
         | HVal.varr pid =>
           let textParts := (H.arrElems pid).filterMap (fun part =>
             match H.getField part "text" with
             | HVal.vstr s => some s
             | _ => none)
           if textParts ≠ [] then some (jsJoin ("\n") textParts) else none
         | _ => none).orElse (fun _ =>
        (match H.getField content "text" with
         | HVal.vstr s => if s ≠ "" then some s else none
         | _ => none).orElse (fun _ =>
        if H.getField candidate "finishReason" = HVal.vstr ("STOP") ∧
            truthy content then
          some (jsonStringify H content)
        else none)))
    else none
  match fromCandidate with
  | some s => s
  | none =>
    -- a function-valued top-level text accessor
    let afterFn : Option String :=
      match H.getField response "text" with
      | HVal.vfn (FnRet.fnOk s) => if s ≠ "" then some s else none
      | _ => none
    match afterFn with
    | some s => s
    | none =>
      -- last resort: bounded scan for `text` properties
      match response with
      | HVal.vobj _ =>
        let textProps := findTextProperties H response 3 0
        if textProps.length > 0 then jsJoin ("\n\n") textProps
        else "No content found in response"
      | HVal.varr _ =>
        let textProps := findTextProperties H response 3 0
        if textProps.length > 0 then jsJoin ("\n\n") textProps
        else "No content found in response"
      | _ => "No content found in response"

/-- `extractMainContent` from response-formatter.ts.  The first statement of
its `try` is `JSON.stringify(response, null, 2)` in a logging line, which
throws on a cyclic response and sends control to the `catch`, whose value is
`Error extracting content from response`; every later `JSON.stringify` in
the body only reaches values already serialized by that first call, so the
catch is entered exactly when the first stringify throws. -/
def extractMainContent (H : Heap) (response : HVal) : String :=
  if jsonStringifyThrows H response then "Error extracting content from response"
  else
    -- Direct text at the top level
    let topText := H.getField response "text"
    match topText with
    | HVal.vstr s =>
      if s ≠ "" ∧ jsLength (jsTrim s) > 0 then s
      else extractMainContentRest H response
    | _ => extractMainContentRest H response

/-- `extractThinkingContent` from response-formatter.ts; returns the raw
`candidate.thinking` value when truthy, else the empty string. -/
def extractThinkingContent (H : Heap) (response : HVal) : HVal :=
  let candidates := H.getField response "candidates"
  if jsGtZero (H.getField candidates "length") then
    let thinking := H.getField (H.getIndex candidates 0) "thinking"
    if truthy thinking then thinking else HVal.vstr ("")
  else HVal.vstr ("")

/-- `formatSearchResultsSummary` from response-formatter.ts. -/
def formatSearchResultsSummary (H : Heap) (searchResults : HVal) : String :=
  match searchResults with
  | HVal.varr id =>
    if H.arrElems id = [] then ""
    else
      jsJoin ("\n") ((H.arrElems id).enum.map (fun p =>
        let result := p.2
        let title := let t := H.getField result "title"
          if truthy t then jsToDisplay H t else "Untitled"
        let url := let u := H.getField result "url"
          if truthy u then jsToDisplay H u else ""
        let snippet := let s := H.getField result "snippet"
          if truthy s then jsToDisplay H s else ""
        toString (p.1 + 1) ++ ". **" ++ title ++ "**\n   " ++ url ++ "\n   " ++
          snippet ++ "\n"))
  | _ => ""

/-- `extractSearchResults` from response-formatter.ts. -/
def extractSearchResults (H : Heap) (response : HVal) : HVal :=
  let candidates := H.getField response "candidates"
  if jsGtZero (H.getField candidates "length") then
    let candidate := H.getIndex candidates 0
    let gm := H.getField candidate "grounding_metadata"
    let rendered := H.getField (H.getField gm "search_entry_point") "rendered_content"
    if truthy rendered then rendered
    else
      let searchResults := H.getField gm "search_results"
      if truthy searchResults then
        HVal.vstr (formatSearchResultsSummary H searchResults)
      else HVal.vstr ("")
  else HVal.vstr ("")

/-- One record of the `MODELS` registry in src/src/config/models.ts; only the
fields the response formatter reads (`id`, `displayName`) are carried. -/
structure ModelRec where
  id : String
  displayName : String
deriving DecidableEq, Repr

namespace Config

/-- The `MODELS` registry of src/src/config/models.ts. -/
def MODELS : List (String × ModelRec) :=
  [("gemini-2.5-pro-preview-03-25",
    { id := "gemini-2.5-pro-preview-03-25", displayName := "Gemini 2.5 Pro" }),
   ("gemini-2.5-flash-preview-04-17",
    { id := "gemini-2.5-flash-preview-04-17", displayName := "Gemini 2.5 Flash" }),
   ("gemini-2.0-flash",
    { id := "gemini-2.0-flash", displayName := "Gemini 2.0 Flash" }),
   ("gemini-2.0-flash-lite",
    { id := "gemini-2.0-flash-lite", displayName := "Gemini 2.0 Flash-Lite" }),
   ("gemini-1.5-pro",
    { id := "gemini-1.5-pro", displayName := "Gemini 1.5 Pro" })]

end Config

/-- A content block of the final tool-result envelope. -/
structure ContentBlock where
  type : String
  text : String
deriving DecidableEq, Repr

/-- The final tool-result envelope: typed content blocks, a metadata object,
and the error flag (absent in JavaScript modelled as `false`). -/
structure ToolResult where
  content : List ContentBlock
  metadata : List (String × HVal) := []
  isError : Bool := false
deriving DecidableEq, Repr

/-- The `ResponseOptions` argument of `formatResponse`. -/
structure ResponseOptions where
  includeThinking : Bool := false
  includeSearch : Bool := false
  customFormat : List (String × HVal) := []
  operation : Option String := none
  processingType : Option String := none
  withFile : Bool := false
  isImageFile : Bool := false
  fileType : Option String := none
deriving Repr

/-- The three `return` sites of `formatResponse`: the choice between the
normal text envelope, the vision (bounding-box) envelope and the
no-meaningful-content envelope, each prefixing `modelInfo` to its text
block. -/
def formatResponseEnvelope (H : Heap) (response : HVal)
    (modelInfo fullText : String) (baseMetadata customFormat :
    List (String × HVal)) : ToolResult :=
  if fullText ≠ "" ∧ jsLength (jsTrim fullText) > 0 then
    { content := [{ type := "text", text := modelInfo ++ fullText }],
      metadata := baseMetadata ++ customFormat }
  else
    let boundingBoxes := H.getField
      (H.getField (H.getIndex (H.getField response "candidates") 0) "content")
      "boundingBoxes"
    if truthy boundingBoxes ∧ isArray boundingBoxes then
      let combinedText :=
        if fullText ≠ "" ∧ jsLength (jsTrim fullText) > 10 ∧
            ¬ jsIncludes fullText ("No content found") then
          fullText ++ "\n\n**Detected Objects:**\n```json\n" ++
            jsonStringify H boundingBoxes ++ "\n```"
        else
          let parts := H.getField
            (H.getField (H.getIndex (H.getField response "candidates") 0)
              "content") "parts"
          let descriptionText :=
            match parts with
            | HVal.varr pid =>
              ((H.arrElems pid).filterMap (fun part =>
                match H.getField part "text" with
                | HVal.vstr s =>
                  if jsLength (jsTrim s) > 10 then some s else none
                | _ => none)).headD ("")
            | _ => ""
          if descriptionText ≠ "" then
            descriptionText ++ "\n\n**Detected Objects:**\n```json\n" ++
              jsonStringify H boundingBoxes ++ "\n```"
          else
            "The image analysis detected the following objects:\n```json\n" ++
              jsonStringify H boundingBoxes ++
              "\n```\n\nFor a more detailed description, try using the `gemini_analyze` tool with a specific instruction."
      { content := [{ type := "text", text := modelInfo ++ combinedText }],
        metadata := baseMetadata ++ [("hasVisionResults", HVal.vbool true)] ++
          customFormat }
    else
      { content :=
          [{ type := "text",
             text := modelInfo ++
               "No meaningful content could be extracted from the response." }],
        metadata := baseMetadata ++ customFormat }

/-- `formatResponse` from src/src/utils/response-formatter.ts.
`sdkResponse` is the optional raw SDK response; its `text` accessor is the
`vfn` value of its `text` property (a throwing call is caught and leaves the
text empty).  The `Model used` banner expression is written once here where
the source repeats the identical expression at each of its three `return`
sites. -/
def formatResponse (H : Heap) (response : HVal) (modelId : String)
    (options : ResponseOptions) (sdkResponse : HVal) : ToolResult :=
  let model := (Config.MODELS.lookup modelId).getD
    { displayName := "Gemini API", id := modelId }
  -- text from the raw SDK response, else from the transformed response
  let mainText0 :=
    if truthy sdkResponse then
      match H.getField sdkResponse "text" with
      | HVal.vfn (FnRet.fnOk s) => s
      | _ => ""
    else ""
  let mainText1 :=
    if mainText0 = "" ∨ jsLength (jsTrim mainText0) = 0 then
      extractMainContent H response
    else mainText0
  -- image files with no good description
  let mainText :=
    if options.isImageFile ∧ (mainText1 = "" ∨
        jsIncludes mainText1 ("bounding box") ∨ jsLength mainText1 < 50) then
      if jsIncludes mainText1 ("bounding box") then
        "The image contains objects that have been detected with bounding boxes. For a more detailed description, try using the `gemini_analyze` tool with a specific instruction.\n\n"
          ++ mainText1
      else mainText1
    else mainText1
  -- optional thinking section (a non-string truthy value makes the source's
  -- `.trim()` throw inside its try, leaving the text unchanged)
  let fullText0 :=
    if options.includeThinking then
      match extractThinkingContent H response with
      | HVal.vstr s =>
        if s ≠ "" ∧ jsLength (jsTrim s) > 0 then
          mainText ++ "\n\n**Thinking:**\n" ++ s
        else mainText
      | _ => mainText
    else mainText
  -- optional search-results section
  let fullText :=
    if options.includeSearch then
      match extractSearchResults H response with
      | HVal.vstr s =>
        if s ≠ "" ∧ jsLength (jsTrim s) > 0 then
          fullText0 ++ "\n\n**Search Results:**\n" ++ s
        else fullText0
      | _ => fullText0
    else fullText0
  let modelUsed := H.getField response "modelUsed"
  let modelInfo := "**Model used: " ++
    (if truthy modelUsed then jsToDisplay H modelUsed else model.id) ++
    "**\n\n"
  let baseMetadata : List (String × HVal) :=
    [("modelUsed",
      if truthy modelUsed then modelUsed else HVal.vstr model.displayName),
     ("modelId", if truthy modelUsed then modelUsed else HVal.vstr model.id)]
  formatResponseEnvelope H response modelInfo fullText baseMetadata
    options.customFormat

/-! ## Constants and error values -/

namespace TOOL_NAMES

/-- `TOOL_NAMES` of src/dist/config/constants.js (appended to
src/dist/config/models.d.ts in the snapshot). -/
def GEM_SEARCH : String := "gemini_search"

def GEM_REASON : String := "gemini_reason"

def GEM_CODE : String := "gemini_code"

def GEM_FILEOPS : String := "gemini_fileops"

/-- The legacy alias entries of the same `TOOL_NAMES` object: `SEARCH` and
`REASON` are bound to the `gemini_*` names, not to bare `search`/`reason`
strings. -/
def SEARCH : String := "gemini_search"

def REASON : String := "gemini_reason"

def ANALYZE_FILE : String := "gemini_analyze"

def RAPID_SEARCH : String := "gemini_search"

end TOOL_NAMES

namespace MODEL_IDS

/-- `MODEL_IDS` of src/dist/config/constants.js (appended to
src/dist/config/models.d.ts in the snapshot). -/
def FAST : String := "gemini-2.0-flash-lite-001"

def BALANCED : String := "gemini-2.0-flash-001"

def ADVANCED : String := "gemini-2.5-pro-exp-03-25"

def LARGE_CONTEXT : String := "gemini-1.5-pro-002"

end MODEL_IDS

/-- The MCP error codes this system throws. -/
inductive ErrCode where
  | InvalidParams
  | MethodNotFound
  | InternalError
deriving DecidableEq, Repr

/-- A thrown JavaScript value: an `McpError` (typed protocol error) or any
other `Error` with its message. -/
inductive JsErr where
  | mcp (code : ErrCode) (message : String)
  | plain (message : String)
deriving DecidableEq, Repr

def JsErr.isMcpError : JsErr → Bool
  | JsErr.mcp _ _ => true
  | _ => false

def JsErr.message : JsErr → String
  | JsErr.mcp _ m => m
  | JsErr.plain m => m

/-! ## Request builder (src/src/utils/request-builder.ts) -/

/-- A `file_path` / `file_context` argument: one path or an array of
paths. -/
inductive FInput where
  | fsingle (s : String)
  | fmulti (l : List String)
deriving DecidableEq, Repr

/-- JavaScript truthiness of a path argument (arrays are always truthy). -/
def FInput.isTruthyF : FInput → Bool
  | FInput.fsingle s => s ≠ ""
  | FInput.fmulti _ => true

/-- A role-tagged message with content parts. -/
structure Message where
  role : String
  parts : List Part
deriving DecidableEq, Repr

/-- The snake-case generation-parameter object the request builders
construct. -/
structure GenerationNums where
  temperature : Option ℚ := none
  top_p : Option ℚ := none
  top_k : Option ℚ := none
  max_output_tokens : Option ℚ := none
deriving DecidableEq, Repr

/-- `InternalRequest` of request-builder.ts (the `contents` field is only
used by the code-tool builder, which no verified property touches, and is
omitted). -/
structure InternalRequest where
  modelId : Option String := none
  messages : List Message
  generationConfig : Option GenerationNums := none
  safetySettings : Option (List HVal) := none
  toolName : Option String := none
deriving Repr

/-- `SdkRequest` of request-builder.ts: what the builders hand to the
execution engine. -/
structure SdkRequest where
  contents : List Message
  systemInstruction : Option String := none
  generationConfig : Option GenerationNums := none
  safetySettings : Option (List HVal) := none
  toolName : Option String := none
  modelId : Option String := none
  file_path : Option FInput := none
  file_context : Option FInput := none
deriving Repr

/-- `buildRequest` from src/src/utils/request-builder.ts: hoist the first
system-role message's text into `systemInstruction` when its trimmed text is
non-empty, drop every system-role message from `contents`, and delete an
empty `systemInstruction` (here: never set one). -/
def buildRequest (internal : InternalRequest) : SdkRequest :=
  let allContents := internal.messages
  let sysMsg := allContents.find? (fun m => m.role = "system")
  let systemInstruction : Option String :=
    match sysMsg with
    | some m =>
      match m.parts.head? with
      | some (Part.ptext t) => if jsTrim t ≠ "" then some t else none
      | _ => none
    | none => none
  let contents := allContents.filter (fun m => ¬ m.role = "system")
  { contents := contents,
    systemInstruction := systemInstruction,
    generationConfig := internal.generationConfig,
    safetySettings := internal.safetySettings,
    toolName := internal.toolName,
    modelId := internal.modelId }

/-- Arguments of the `gemini_fileops` tool. -/
structure FileopsArgs where
  file_path : Option FInput := none
  instruction : Option String := none
  operation : Option String := none
  use_large_context_model : Bool := false
  model_id : Option String := none
deriving Repr

/-- The V8 wording (quotes elided) of the `TypeError` raised when
`getFileTypeCategory` receives `undefined`. -/
def typeErrorUndefIncludes : String :=
  "Cannot read properties of undefined (reading includes)"

/-- The fileops system prompt of `buildFileopsRequest`. -/
def fileopsSystemPrompt (model_id : Option String) : String :=
  "**Role:** Content Executor\n\n**Input Context:** Text content from one or more files and a specific instruction (e.g., summarize, extract, analyze).\n\n**Primary Task:** Execute the specified instruction on the provided file content and generate a concise textual result.\n\n**Key Guidelines:**\n* **Identify** the core operation requested by the instruction (e.g., summarize, extract, analyze).\n* **Execute** this operation precisely on the provided file content.\n* **Generate** only the direct textual output resulting from the operation (e.g., the summary, the extracted data, the analysis).\n* **Ensure** the output is concise and directly fulfills the instruction.\n* If multiple file contents were provided, **Process** them collectively as relevant context for the operation.\n\n**Model Used:** "
    ++ (match model_id with
        | some m => if m ≠ "" then m else "Default model"
        | none => "Default model")

/-- The operation- and file-type-specific prompt switch of
`buildFileopsRequest`. -/
def fileopsCustomPrompt (operation : Option String) (fileType : String) :
    String :=
  match (operation.map jsToLower).getD ("") with
  | "summarize" =>
    if fileType = "image" then
      "Provide a concise summary of what you see in this image. Include key objects, people, setting, and overall context."
    else if fileType = "pdf" then
      "Provide a comprehensive summary of this PDF document. Include key points, main arguments, and important details."
    else
      "Provide a concise summary of this content. Highlight the main points, key arguments, and important details."
  | "extract" =>
    if fileType = "image" then
      "Extract and list all important elements visible in this image, including objects, people, text, and any notable features."
    else if fileType = "pdf" then
      "Extract the key information from this PDF document, including main topics, data points, figures, and any structured information."
    else
      "Extract the key information from this content, including main topics, data points, figures, and any structured information."
  | _ =>
    if fileType = "image" then
      "Please provide a detailed analysis of this image. Include:\n1. What objects, people, or elements are visible\n2. The setting or context of the image\n3. Any notable features, colors, or composition elements\n4. Any text visible in the image\n5. The overall mood or impression conveyed"
    else if fileType = "pdf" then
      "Analyze this PDF document in detail. Identify the main themes, structure, key arguments, evidence presented, and overall quality of the content."
    else
      "Analyze this content in detail. Identify the main themes, structure, key arguments, evidence presented, and overall quality of the content."

/-- `buildFileopsRequest` from src/src/utils/request-builder.ts.  A falsy
`file_path` raises a plain `Error`; an empty path array makes the
file-type probe throw a `TypeError` (both unreachable from the handler,
which validates first). -/
def buildFileopsRequest (args : FileopsArgs) : Except JsErr SdkRequest :=
  match args.file_path with
  | none => Except.error (JsErr.plain ("file_path is required for fileops"))
  | some fp =>
    if ¬ fp.isTruthyF then
      Except.error (JsErr.plain ("file_path is required for fileops"))
    else
      match fp with
      | FInput.fmulti [] => Except.error (JsErr.plain typeErrorUndefIncludes)
      | _ =>
        let filePath := match fp with
          | FInput.fsingle s => s
          | FInput.fmulti l => l.headD ("")
        let fileType := getFileTypeCategory filePath
        let customPrompt :=
          match args.instruction with
          | some ins =>
            if ins ≠ "" ∧ jsLength (jsTrim ins) > 0 then ins
            else fileopsCustomPrompt args.operation fileType
          | none => fileopsCustomPrompt args.operation fileType
        let internalRequest : InternalRequest :=
          { modelId := args.model_id,
            messages :=
              [{ role := "system",
                 parts := [Part.ptext (fileopsSystemPrompt args.model_id)] },
               { role := "user", parts := [Part.ptext customPrompt] }],
            generationConfig :=
              some { temperature := some (0.3 : ℚ), top_p := some (0.8 : ℚ),
                     top_k := some (40 : ℚ) },
            toolName := some TOOL_NAMES.GEM_FILEOPS }
        let request := buildRequest internalRequest
        Except.ok { request with file_path := some fp, file_context := some fp }

/-! ## Heap allocation and mutation -/

/-- Allocate a fresh object node. -/
def Heap.allocObj (H : Heap) (fields : List (String × HVal)) : Heap × HVal :=
  ({ objFields := fun i => if i = H.nextId then fields else H.objFields i,
     arrElems := H.arrElems, nextId := H.nextId + 1 },
   HVal.vobj H.nextId)

/-- Allocate a fresh array node. -/
def Heap.allocArr (H : Heap) (elems : List HVal) : Heap × HVal :=
  ({ objFields := H.objFields,
     arrElems := fun i => if i = H.nextId then elems else H.arrElems i,
     nextId := H.nextId + 1 },
   HVal.varr H.nextId)

/-- Replace (or append) a key in a field list. -/
def setKeyL : List (String × HVal) → String → HVal → List (String × HVal)
  | [], k, x => [(k, x)]
  | kv :: rest, k, x =>
    if kv.1 = k then (k, x) :: rest else kv :: setKeyL rest k x

/-- Assignment `v[k] = x` on an object node. -/
def Heap.setObjField (H : Heap) (v : HVal) (k : String) (x : HVal) : Heap :=
  match v with
  | HVal.vobj id =>
    { H with objFields := fun i =>
        if i = id then setKeyL (H.objFields id) k x else H.objFields i }
  | _ => H

/-! ## Provider adapter (sdk-mapper, src/unnamed/part_010) -/

/-- `isFlashModel` from the sdk-mapper: lower-cased substring test for
`flash`. -/
def isFlashModel (modelId : String) : Bool :=
  jsIncludes (jsToLower modelId) ("flash")

/-- A `tools` declaration entry; the only one the system emits is
`{ googleSearch: {} }`. -/
inductive ToolDecl where
  | googleSearch
deriving DecidableEq, Repr

/-- The `prompt` field shapes `transformToSdkFormat` probes for. -/
inductive PromptVal where
  | pstr (s : String)
  | pobjText (text : String)
  | pother
deriving DecidableEq, Repr

/-- The untyped request object `transformToSdkFormat` receives, restricted
to the fields it probes. -/
structure TransformInput where
  prompt : Option PromptVal := none
  contents : Option (List Message) := none
  file_path : Option FInput := none
  file_context : Option FInput := none
  systemInstruction : Option String := none
  temperature : Option ℚ := none
  maxOutputTokens : Option ℚ := none
  topP : Option ℚ := none
  topK : Option ℚ := none
  generation_config : Option GenerationNums := none
  safetySettings : Option (List HVal) := none
  toolName : Option String := none
deriving Repr

/-- The camel-case `generationConfig` object the provider adapter builds. -/
structure GenConfigOut where
  temperature : Option ℚ := none
  topP : Option ℚ := none
  topK : Option ℚ := none
  maxOutputTokens : Option ℚ := none
deriving DecidableEq, Repr

/-- The SDK request `transformToSdkFormat` returns. -/
structure TransformOut where
  contents : List Message
  systemInstruction : Option String := none
  generationConfig : Option GenConfigOut := none
  safetySettings : Option (List HVal) := none
  tools : Option (List ToolDecl) := none
deriving Repr

/-- Truthiness of an optional path argument. -/
def optFTruthy : Option FInput → Bool
  | some f => f.isTruthyF
  | none => false

/-- The per-file body of the `transformToSdkFormat` file-context loop; any
error inside it is caught and absorbed into an error-text part. -/
def processFileContext (fs : FS) (fileContext : String) : List Part :=
  if isUrl fileContext then
    [Part.ptext ("[URL reference: " ++ fileContext ++
      "]\n\nPlease access and process this URL.")]
  else
    match fs.lookup fileContext with
    | none => [Part.ptext ("[Error processing file: " ++ fileContext ++ "]")]
    | some entry =>
      let mimeType := (getMimeType fileContext).getD ("application/octet-stream")
      let lower := jsToLower fileContext
      if mimeType = "application/xml" ∨ jsEndsWith lower (".xml") ∨
          mimeType = "application/json" ∨ jsEndsWith lower (".json") ∨
          mimeType = "application/x-yaml" ∨ jsEndsWith lower (".yaml") ∨
          jsEndsWith lower (".yml") then
        let fileContent := entry.content
        if (jsIncludes fileContext ("repomix") ∨
            jsIncludes fileContent ("<repomix>") ∨
            jsIncludes fileContent ("<directory_structure>")) ∧
            jsEndsWith lower (".xml") then
          -- Repomix XML: inline base64 of the text, as text/plain
          [Part.pinline ("text/plain") entry.b64]
        else if jsEndsWith lower (".json") then
          (match entry.prettyJson with
           | some pretty => [Part.ptext ("```json\n" ++ pretty ++ "\n```")]
           | none => [Part.ptext ("File content (JSON):\n\n" ++ fileContent)])
        else if jsEndsWith lower (".yaml") ∨ jsEndsWith lower (".yml") then
          [Part.ptext ("```yaml\n" ++ fileContent ++ "\n```")]
        else if jsEndsWith lower (".xml") then
          [Part.ptext fileContent]
        else
          [Part.ptext fileContent]
      else
        [Part.pinline mimeType entry.b64]

/-- `transformToSdkFormat` from the sdk-mapper.  The final
`parts.sort((a, _b) => 'text' in a ? -1 : 1)` uses a comparator that
inspects only its first argument, so under V8 (initial-run detection
followed by binary insertion, each text pivot landing at index 0 and each
non-text pivot at the end) the result is the text parts in reverse
encounter order followed by the non-text parts in encounter order. -/
def transformToSdkFormat (fs : FS) (internalRequest : TransformInput)
    (modelId : Option String) : TransformOut :=
  -- prompt-text extraction
  let promptText :=
    match internalRequest.prompt with
    | some (PromptVal.pstr s) => s
    | some (PromptVal.pobjText t) => t
    | _ =>
      match internalRequest.contents with
      | some (c0 :: _) =>
        (match c0.parts.head? with
         | some (Part.ptext t) => t
         | _ => "")
      | _ => ""
  -- file_path is normalized into file_context when the latter is absent
  let fileContextEff :=
    if optFTruthy internalRequest.file_path ∧
        ¬ optFTruthy internalRequest.file_context then
      internalRequest.file_path
    else internalRequest.file_context
  -- text parts from the contents array, else the prompt text
  let parts0 : List Part :=
    match internalRequest.contents with
    | some cs =>
      cs.flatMap (fun c => c.parts.filterMap (fun p =>
        match p with
        | Part.ptext t => if t ≠ "" then some (Part.ptext t) else none
        | _ => none))
    | none =>
      if promptText ≠ "" ∧ jsTrim promptText ≠ "" then [Part.ptext promptText]
      else []
  -- file-context parts
  let fileContexts : List String :=
    match fileContextEff with
    | some f =>
      if f.isTruthyF then
        (match f with
         | FInput.fsingle s => [s]
         | FInput.fmulti l => l)
      else []
    | none => []
  let parts1 := parts0 ++ fileContexts.flatMap (processFileContext fs)
  let parts2 := if parts1 = [] then [Part.ptext (" ")] else parts1
  let parts := (parts2.filter Part.isTextPart).reverse ++
    parts2.filter (fun p => ¬ Part.isTextPart p)
  -- flash detection
  let isFlash : Bool :=
    match modelId with
    | some m => m != "" && isFlashModel m
    | none => false
  -- system-instruction extraction and flash-only filtering
  let systemInstructionStr :=
    match internalRequest.contents with
    | some cs =>
      (match cs.find? (fun c => c.role = "system") with
       | some sysMsg =>
         (match sysMsg.parts.head? with
          | some (Part.ptext t) => t
          | _ => "")
       | none => "")
    | none => ""
  let userContents :=
    match internalRequest.contents with
    | some cs =>
      if isFlash then cs.filter (fun c => ¬ c.role = "system") else cs
    | none => []
  let contentsOut :=
    if userContents ≠ [] then userContents
    else [{ role := "user", parts := parts }]
  let sysOut0 :=
    if isFlash && systemInstructionStr != "" then some systemInstructionStr
    else none
  let sysOut :=
    match internalRequest.systemInstruction with
    | some s => if s ≠ "" then some s else sysOut0
    | none => sysOut0
  -- generation config: direct fields win over the nested snake-case object
  let gcTemperature :=
    internalRequest.temperature <|>
      (internalRequest.generation_config.bind GenerationNums.temperature)
  let gcTopP :=
    internalRequest.topP <|>
      (internalRequest.generation_config.bind GenerationNums.top_p)
  let gcTopK :=
    internalRequest.topK <|>
      (internalRequest.generation_config.bind GenerationNums.top_k)
  let gcMaxOutputTokens :=
    internalRequest.maxOutputTokens <|>
      (internalRequest.generation_config.bind GenerationNums.max_output_tokens)
  let generationConfig :=
    if gcTemperature = none ∧ gcTopP = none ∧
        gcTopK = none ∧ gcMaxOutputTokens = none then none
    else some { temperature := gcTemperature, topP := gcTopP,
                topK := gcTopK, maxOutputTokens := gcMaxOutputTokens }
  -- native search grounding for flash models on the search tool
  let tools :=
    if internalRequest.toolName == some ("gemini_search") &&
        (match modelId with
         | some m => m != "" && isFlashModel m
         | none => false) then
      some [ToolDecl.googleSearch]
    else none
  { contents := contentsOut, systemInstruction := sysOut,
    generationConfig := generationConfig,
    safetySettings := internalRequest.safetySettings, tools := tools }

/-- `replaceAll` on character lists (JavaScript `String.replace` with a
global pattern). -/
def replaceAllL (pat rep : List Char) : List Char → List Char
  | [] => []
  | x :: xs =>
    if _h : pat.isPrefixOf (x :: xs) ∧ pat ≠ [] then
      rep ++ replaceAllL pat rep (xs.drop (pat.length - 1))
    else x :: replaceAllL pat rep xs
termination_by l => l.length
decreasing_by
  · simp only [List.length_drop, List.length_cons]
    omega
  · simp only [List.length_cons]
    omega

def jsReplaceAll (s pat rep : String) : String :=
  String.mk (replaceAllL pat.data rep.data s.data)

/-- The construction section of `transformFromSdkResponse`: allocates the
single-candidate internal response object (part, parts array, content,
candidate, candidates array, response), mirroring grounding metadata into
the candidate when it carries search data.  All pre-existing values
(`boundingBoxes`, the grounding metadata) are probed in the original heap,
exactly as the source reads them before any allocation. -/
def buildInternalResponse (H : Heap) (responseText : String)
    (boundingBoxes : HVal) (groundingMetadata : Option HVal) : Heap × HVal :=
  let (H1, partObj) := H.allocObj [("text", HVal.vstr responseText)]
  let (H2, partsArr) := H1.allocArr [partObj]
  let contentFields :=
    [("parts", partsArr)] ++
      (if truthy boundingBoxes ∧ jsGtZero (H.getField boundingBoxes "length")
       then [("boundingBoxes", boundingBoxes)] else [])
  let (H3, contentObj) := H2.allocObj contentFields
  -- grounding metadata mirrored into the candidate when it carries search data
  let searchData :=
    match groundingMetadata with
    | some gm =>
      truthy (H.getField gm ("searchResults")) ||
        truthy (H.getField gm ("webSearchResults"))
    | none => false
  let (H4, candidateFields) :=
    match groundingMetadata with
    | some gm =>
      if searchData then
        let renderedContent := jsonStringify H gm
        let (Ha, sep) := H3.allocObj
          [("rendered_content", HVal.vstr renderedContent)]
        let (Hb, gmObj) := Ha.allocObj [("search_entry_point", sep)]
        (Hb, [("content", contentObj), ("grounding_metadata", gmObj)])
      else (H3, [("content", contentObj)])
    | none => (H3, [("content", contentObj)])
  let (H5, candObj) := H4.allocObj candidateFields
  let (H6, candsArr) := H5.allocArr [candObj]
  let responseFields :=
    [("candidates", candsArr)] ++
      (match groundingMetadata with
       | some gm => [("groundingMetadata", gm)]
       | none => [])
  H6.allocObj responseFields

/-- `transformFromSdkResponse` from the sdk-mapper.  The raw SDK response is
a heap value; its `text()` accessor is the `vfn` value of its `text`
property.  Every throwing probe of the source sits inside a local
`try`/`catch` whose handler coincides with the `undefined`-propagation of
`Heap.getField`, so the outer catch-all (which would wrap an error message
in the same single-candidate shape) is unreachable here.  Returns the
extended heap and the freshly built internal response object. -/
def transformFromSdkResponse (H : Heap) (sdkResponse : HVal) : Heap × HVal :=
  -- text extraction via the text() method
  let responseText0 :=
    if truthy sdkResponse then
      match H.getField sdkResponse "text" with
      | HVal.vfn (FnRet.fnOk s) =>
        -- malformed-JSON cleanup
        let s1 :=
          if jsIncludes s ("Selecting") ∧ jsIncludes s ("\"...") then
            jsReplaceAll (jsReplaceAll s ("\n") ("\\n")) ("\r") ("\\r")
          else s
        -- image responses carrying only bounding-box text
        if jsIncludes s1 ("bounding box") ∧ jsLength s1 < 200 then
          let bb := H.getField
            (H.getField (H.getIndex (H.getField sdkResponse "candidates") 0)
              "content") "boundingBoxes"
          if truthy bb ∧ isArray bb ∧ jsGtZero (H.getField bb "length") then
            "The image contains the following objects:\n\n" ++ s1 ++
              "\n\nFor a more detailed description, try using the `gemini_analyze` tool with a specific instruction."
          else s1
        else s1
      | HVal.vfn (FnRet.fnThrow m) => "[Error extracting text: " ++ m ++ "]"
      | _ => ""
    else ""
  -- vision bounding boxes
  let boundingBoxes := H.getField
    (H.getField (H.getIndex (H.getField sdkResponse "candidates") 0) "content")
    "boundingBoxes"
  -- fallback for unexpected response format
  let responseText :=
    if responseText0 = "" then "[Unable to extract text from response]"
    else responseText0
  -- grounding metadata
  let groundingMetadata : Option HVal :=
    if truthy (H.getField (H.getField sdkResponse "promptFeedback")
        "blockReason") then none
    else
      let candidates := H.getField sdkResponse "candidates"
      if jsGtZero (H.getField candidates "length") then
        let candidate := H.getIndex candidates 0
        let gm := H.getField candidate "groundingMetadata"
        if truthy gm then some gm
        else
          let gmAlt := H.getField
            (H.getIndex (H.getField (H.getField candidate "content") "parts") 0)
            "groundingMetadata"
          if truthy gmAlt then some gmAlt else none
      else none
  -- construct the internal response object
  buildInternalResponse H responseText boundingBoxes groundingMetadata

/-! ## Model selector, dist variant
(src/dist/utils/model-selector.js, packaged with src/dist/interfaces/common.js) -/

namespace ModelSelectorDist

/-- `MODEL_FALLBACKS` of the dist model selector. -/
def MODEL_FALLBACKS : List (String × String) :=
  [("gemini-2.5-pro-latest", "gemini-2.5-pro-exp-03-25"),
   ("gemini-2.5-flash-latest", "gemini-2.5-flash-preview-04-17"),
   ("gemini-2.5-pro-preview-03-25", "gemini-2.5-pro-exp-03-25"),
   ("gemini-2.5-flash-preview-04-17", "gemini-2.5-flash-preview-04-17"),
   ("gemini-2.5-flash-preview-05-15", "gemini-2.5-flash-preview-04-17"),
   ("gemini-2.5-pro", "gemini-2.5-pro-exp-03-25"),
   ("gemini-2.5-flash", "gemini-2.5-flash-preview-04-17"),
   ("gemini-2.0-pro", "gemini-2.0-flash-001"),
   ("gemini-2.0-flash", "gemini-2.0-flash-001"),
   ("gemini-2.0-flash-lite", "gemini-2.0-flash-lite-001"),
   ("gemini-1.5-pro", "gemini-1.5-pro-002"),
   ("gemini-1.5-pro-latest", "gemini-1.5-pro-002"),
   ("gemini-1.5-flash", "gemini-2.0-flash-001"),
   ("gemini-1.5-flash-latest", "gemini-2.0-flash-001"),
   ("gemini-2.0-flash-thinking-exp-01-21", "gemini-1.5-pro-002"),
   ("gemini-2.0-flash-thinking", "gemini-1.5-pro-002"),
   ("gemini-2.0-flash-thinking-latest", "gemini-1.5-pro-002"),
   ("gemini-2.0-flash-reasoning", "gemini-1.5-pro-002"),
   ("gemini-2.0-pro-reasoning", "gemini-1.5-pro-002")]

/-- `getUsableModelId` of the dist model selector. -/
def getUsableModelId (modelId : String) : String :=
  match MODEL_FALLBACKS.lookup modelId with
  | some fallback => fallback
  | none =>
    if jsIncludes modelId ("preview") || jsIncludes modelId ("exp") then
      if jsIncludes modelId ("2.5-pro") then "gemini-2.5-pro-exp-03-25"
      else if jsIncludes modelId ("2.5-flash") then "gemini-2.5-flash-preview-04-17"
      else if jsIncludes modelId ("pro") then "gemini-1.5-pro-002"
      else if jsIncludes modelId ("flash-lite") then "gemini-2.0-flash-lite-001"
      else "gemini-2.0-flash-001"
    else if ¬ jsIncludes modelId ("-001") ∧ ¬ jsIncludes modelId ("-002") then
      if jsIncludes modelId ("2.5-pro") then "gemini-2.5-pro-exp-03-25"
      else if jsIncludes modelId ("2.5-flash") then "gemini-2.5-flash-preview-04-17"
      else if jsIncludes modelId ("1.5-pro") then "gemini-1.5-pro-002"
      else if jsIncludes modelId ("2.0-flash-lite") then "gemini-2.0-flash-lite-001"
      else if jsIncludes modelId ("2.0-flash") then "gemini-2.0-flash-001"
      else modelId
    else modelId

/-- The argument fields the dist per-tool selectors read. -/
structure SelectorArgs where
  model_id : Option String := none
  use_large_context_model : Bool := false
deriving DecidableEq, Repr

/-- Truthiness of an optional string argument. -/
def optStrTruthy : Option String → Bool
  | some s => s ≠ ""
  | none => false

/-- `selectSearchModel` of the dist model selector. -/
def selectSearchModel (args : SelectorArgs) : String :=
  if optStrTruthy args.model_id then
    getUsableModelId (args.model_id.getD (""))
  else getUsableModelId ("gemini-2.0-flash-001")

/-- `selectReasonModel` of the dist model selector. -/
def selectReasonModel (args : SelectorArgs) : String :=
  if optStrTruthy args.model_id then
    getUsableModelId (args.model_id.getD (""))
  else getUsableModelId ("gemini-2.5-pro-exp-03-25")

/-- `selectCodeModel` of the dist model selector. -/
def selectCodeModel (args : SelectorArgs) : String :=
  if optStrTruthy args.model_id then
    getUsableModelId (args.model_id.getD (""))
  else getUsableModelId ("gemini-2.5-pro-exp-03-25")

/-- `selectFileopsModel` of the dist model selector. -/
def selectFileopsModel (args : SelectorArgs) : String :=
  if optStrTruthy args.model_id then
    getUsableModelId (args.model_id.getD (""))
  else if args.use_large_context_model then
    getUsableModelId ("gemini-1.5-pro-002")
  else getUsableModelId ("gemini-2.0-flash-lite-001")

/-- `selectToolModel` of the dist model selector. -/
def selectToolModel (toolName : String) (args : SelectorArgs) : String :=
  if toolName = TOOL_NAMES.GEM_SEARCH then selectSearchModel args
  else if toolName = TOOL_NAMES.GEM_REASON then selectReasonModel args
  else if toolName = TOOL_NAMES.GEM_CODE then selectCodeModel args
  else if toolName = TOOL_NAMES.GEM_FILEOPS then selectFileopsModel args
  else if toolName = TOOL_NAMES.SEARCH then selectSearchModel args
  else if toolName = TOOL_NAMES.REASON then selectReasonModel args
  else getUsableModelId ("gemini-2.0-flash-001")

end ModelSelectorDist

/-! ## Model selector, TypeScript variant (src/src/utils/model-selector.ts.new) -/

/-- `TaskType` from src/src/interfaces/common.ts. -/
inductive TaskType where
  | GENERAL_SEARCH
  | RAPID_SEARCH
  | RAPID_PROCESSING
  | COMPLEX_REASONING
  | FILE_ANALYSIS
  | LARGE_CONTEXT_PROCESSING
deriving DecidableEq, Repr

namespace ModelSelectorNew

/-- The legacy `MODELS` ids of model-selector.ts.new. -/
def MODELS_FLASH : String := "gemini-2.0-flash-001"

def MODELS_FLASH_LITE : String := "gemini-2.0-flash-lite-001"

def MODELS_FLASH_THINKING : String := "gemini-1.5-pro"

/-- `getModelForFile` of model-selector.ts.new. -/
def getModelForFile (filePath : String) : String :=
  if filePath = "" then MODELS_FLASH
  else
    let category := getFileTypeCategory filePath
    let extension := jsToLower (extnameOf filePath)
    if category = "image" then MODELS_FLASH
    else if category = "document" then MODELS_FLASH
    else if category = "code" then MODELS_FLASH_THINKING
    else if category = "text" then
      if extension = ".csv" ∨ extension = ".json" ∨ extension = ".xml" then
        MODELS_FLASH
      else MODELS_FLASH_LITE
    else MODELS_FLASH

/-- `getModelForTask` of model-selector.ts.new. -/
def getModelForTask (taskType : TaskType) : String :=
  match taskType with
  | TaskType.GENERAL_SEARCH => MODELS_FLASH
  | TaskType.COMPLEX_REASONING => MODELS_FLASH_THINKING
  | TaskType.RAPID_PROCESSING => MODELS_FLASH_LITE
  | TaskType.FILE_ANALYSIS => MODELS_FLASH
  | _ => MODELS_FLASH

/-- `ModelSelectionOptions` of model-selector.ts.new. -/
structure ModelSelectionOptions where
  modelId : Option String := none
  taskType : Option TaskType := none
  filePath : Option FInput := none
  thinking : Bool := false
  searchRequired : Bool := false
  costEfficient : Bool := false
deriving Repr

/-- `selectModel` of model-selector.ts.new: a truthy user-specified model id
is returned directly. -/
def selectModel (options : ModelSelectionOptions) : String :=
  match options.modelId with
  | some m =>
    if m ≠ "" then m
    else selectModelNoOverride options
  | none => selectModelNoOverride options
where
  selectModelNoOverride (options : ModelSelectionOptions) : String :=
    if options.thinking then MODELS_FLASH_THINKING
    else if options.searchRequired then MODELS_FLASH
    else if options.costEfficient then MODELS_FLASH_LITE
    else
      match options.filePath with
      | some fp =>
        if fp.isTruthyF then
          match fp with
          | FInput.fmulti files =>
            let needsFlash := files.any (fun f =>
              getFileTypeCategory f = "image" ∨ getFileTypeCategory f = "document")
            let needsThinking := files.any (fun f =>
              getFileTypeCategory f = "code")
            if needsThinking then MODELS_FLASH_THINKING
            else if needsFlash then MODELS_FLASH
            else MODELS_FLASH_LITE
          | FInput.fsingle s => getModelForFile s
        else selectModelTask options
      | none => selectModelTask options
  selectModelTask (options : ModelSelectionOptions) : String :=
    match options.taskType with
    | some t => getModelForTask t
    | none => MODELS_FLASH

/-- `MODEL_FALLBACKS` of model-selector.ts.new. -/
def MODEL_FALLBACKS : List (String × String) :=
  [("gemini-2.5-pro-preview-03-25", "gemini-1.5-pro"),
   ("gemini-2.5-flash-preview-04-17", "gemini-2.0-flash-001"),
   ("gemini-2.5-pro", "gemini-1.5-pro"),
   ("gemini-2.5-flash", "gemini-2.0-flash-001"),
   ("gemini-2.0-pro", "gemini-1.5-pro"),
   ("gemini-2.0-flash", "gemini-2.0-flash-001"),
   ("gemini-2.0-flash-lite", "gemini-2.0-flash-lite-001"),
   ("gemini-2.0-flash-thinking-exp-01-21", "gemini-1.5-pro")]

/-- `getUsableModelId` of model-selector.ts.new. -/
def getUsableModelId (modelId : String) : String :=
  match MODEL_FALLBACKS.lookup modelId with
  | some fallback => fallback
  | none =>
    if jsIncludes modelId ("preview") || jsIncludes modelId ("exp") then
      if jsIncludes modelId ("pro") then "gemini-1.5-pro"
      else if jsIncludes modelId ("flash-lite") then "gemini-2.0-flash-lite-001"
      else "gemini-2.0-flash-001"
    else if ¬ jsIncludes modelId ("-001") ∧ ¬ jsIncludes modelId ("-002") then
      if jsIncludes modelId ("1.5-pro") then "gemini-1.5-pro"
      else if jsIncludes modelId ("2.0-flash-lite") then "gemini-2.0-flash-lite-001"
      else if jsIncludes modelId ("2.0-flash") then "gemini-2.0-flash-001"
      else modelId
    else modelId

/-- The request fields `selectModelId` of model-selector.ts.new reads. -/
structure GeminiRequestSel where
  model_id : Option String := none
  capability_level : Option String := none
deriving DecidableEq, Repr

/-- `selectModelId` of model-selector.ts.new: every resolved identifier,
including an explicit override, goes through `getUsableModelId`. -/
def selectModelId (internalRequest : GeminiRequestSel) : String :=
  match internalRequest.model_id with
  | some m =>
    if m ≠ "" then getUsableModelId m
    else selectModelIdByLevel internalRequest
  | none => selectModelIdByLevel internalRequest
where
  selectModelIdByLevel (internalRequest : GeminiRequestSel) : String :=
    let level := (internalRequest.capability_level.filter (fun s => s ≠ "")).getD
      ("balanced")
    let selectedModel :=
      if level = "fast" then MODEL_IDS.FAST
      else if level = "advanced" then MODEL_IDS.ADVANCED
      else if level = "large_context" then MODEL_IDS.LARGE_CONTEXT
      else MODEL_IDS.BALANCED
    getUsableModelId selectedModel

end ModelSelectorNew

/-! ## Execution engine (src/dist/utils/api-executor.js) -/

/-- The exact argument object of the `model.generateContent` call in
`executeRequest` (the payload that reaches the provider). -/
structure WirePayload where
  contents : List Message
  systemInstruction : Option String := none
  tools : Option (List ToolDecl) := none
  generationConfig : Option GenerationNums := none
  safetySettings : Option (List HVal) := none
deriving Repr

/-- What one upstream call does: succeed with a raw SDK response value, or
throw. -/
inductive ApiOutcome where
  | success (raw : HVal)
  | failure (code : Option Int) (status : Option Int) (message : String)
  | failureNonError
deriving DecidableEq

/-- The upstream API as a deterministic oracle from model id and wire
payload to outcome; raw response values live in the ambient heap. -/
abbrev ApiOracle := String → WirePayload → ApiOutcome

/-- `error.code || error.status` followed by `=== n` comparisons. -/
def errCodeNum (code status : Option Int) : Option Int :=
  match code with
  | some n => if n ≠ 0 then some n else (match status with
    | some m => if m ≠ 0 then some m else none
    | none => none)
  | none => match status with
    | some m => if m ≠ 0 then some m else none
    | none => none

/-- `/rate limit/i.test(msg)`. -/
def isRateLimitMessage (msg : String) : Bool :=
  jsIncludes (jsToLower msg) ("rate limit")

/-- The `tools`/`systemInstruction`/config selection of the
`model.generateContent` call in `executeRequest`: the search tool is
attached whenever the payload's tool name is `gemini_search`, with no model
check. -/
def wirePayloadOf (req : SdkRequest) : WirePayload :=
  { contents := req.contents,
    systemInstruction := req.systemInstruction,
    tools :=
      if req.toolName = some ("gemini_search") then some [ToolDecl.googleSearch]
      else none,
    generationConfig := req.generationConfig,
    safetySettings := req.safetySettings }

/-- The file-context preprocessing block of `executeRequest` (lines 140-194):
when the payload carries `file_context`/`file_path` and processing is forced
(fileops) or no file parts are present yet, the file parts produced by
`transformToSdkFormat` are pushed onto the first user message (or the first
message). -/
def augmentFileParts (fs : FS) (modelId : String) (req : SdkRequest) :
    SdkRequest :=
  if optFTruthy req.file_context || optFTruthy req.file_path then
    let forceProcessing := req.toolName = some TOOL_NAMES.GEM_FILEOPS
    let hasFilePartsInContents :=
      req.contents.any (fun c => c.parts.any Part.isDataPart)
    if forceProcessing || ¬ hasFilePartsInContents then
      let tempRequest : TransformInput :=
        { file_context :=
            if optFTruthy req.file_context then req.file_context
            else req.file_path }
      let processedRequest := transformToSdkFormat fs tempRequest (some modelId)
      match processedRequest.contents.head? with
      | some c0 =>
        if c0.parts.length > 0 then
          let fileParts := c0.parts.filter Part.isDataPart
          if fileParts.length > 0 then
            match req.contents.findIdx? (fun c => c.role = "user") with
            | some i =>
              let newContents := req.contents.enum.map (fun p =>
                if p.1 = i then { p.2 with parts := p.2.parts ++ fileParts }
                else p.2)
              { req with contents := newContents }
            | none =>
              match req.contents with
              | m0 :: rest =>
                { req with contents :=
                    { m0 with parts := m0.parts ++ fileParts } :: rest }
              | [] => req
          else req
        else req
      | none => req
    else req
  else req

/-- The result of `executeRequest`: the internal response object and the raw
SDK response. -/
structure ExecResult where
  response : HVal
  rawSdkResponse : HVal
deriving DecidableEq, Repr

/-- One pass of `executeRequest` from src/dist/utils/api-executor.js.
`retry?` is the recursive rate-limit retry available when `isRetry` is
false (`none` on the retried call), receiving the current heap and the
preprocessed payload object.  A rate-limited failure (code 429 or a
`rate limit` message) on a model whose id contains `2.5-pro` uses it;
every other failure is mapped to a typed `McpError`. -/
def executeRequestBody (fs : FS) (api : ApiOracle) (H : Heap)
    (modelId : String) (sdkPayload : SdkRequest)
    (retry? : Option (Heap → SdkRequest → Heap × Except JsErr ExecResult)) :
    Heap × Except JsErr ExecResult :=
  let req0 := { sdkPayload with modelId := some modelId }
  let req := augmentFileParts fs modelId req0
  match api modelId (wirePayloadOf req) with
  | ApiOutcome.success raw =>
    let (H1, internalResponse) := transformFromSdkResponse H raw
    let H2 := H1.setObjField internalResponse "modelUsed" (HVal.vstr modelId)
    (H2, Except.ok { response := internalResponse, rawSdkResponse := raw })
  | ApiOutcome.failure code status message =>
    let errorCode := errCodeNum code status
    if errorCode = some 429 ∨ isRateLimitMessage message then
      match retry?, jsIncludes modelId ("2.5-pro") with
      | some retry, true => retry H req
      | _, _ =>
        (H, Except.error (JsErr.mcp ErrCode.InvalidParams
          ("Rate limit exceeded for " ++ modelId ++ ". Please try again later.")))
    else if jsIncludes message ("not found") ∨ errorCode = some 404 then
      (H, Except.error (JsErr.mcp ErrCode.InvalidParams
        ("Model " ++ modelId ++
          " not found or not supported. Please try a different model.")))
    else if jsIncludes message ("permission") ∨ errorCode = some 403 then
      (H, Except.error (JsErr.mcp ErrCode.InvalidParams
        ("Permission denied for " ++ modelId ++
          ". Check your API key and permissions.")))
    else if errorCode = some 400 ∨
        jsIncludes (jsToLower message) ("bad request") ∨
        jsIncludes message ("Unknown name \"tools\"") then
      (H, Except.error (JsErr.mcp ErrCode.InvalidParams
        ("Bad request for " ++ modelId ++ ": " ++ message)))
    else
      (H, Except.error (JsErr.mcp ErrCode.InternalError ("Error: " ++ message)))
  | ApiOutcome.failureNonError =>
    (H, Except.error (JsErr.mcp ErrCode.InternalError ("Error: Unknown error")))

/-- `executeRequest(modelId, sdkPayload, isRetry)`: the self-recursion of
the source reaches depth at most one (the retried call has `isRetry =
true`), so it is unrolled once; the retry targets the hard-coded
`gemini-2.5-flash-preview-04-17` and carries the same (preprocessed)
payload object. -/
def executeRequest (fs : FS) (api : ApiOracle) (H : Heap) (modelId : String)
    (sdkPayload : SdkRequest) (isRetry : Bool) :
    Heap × Except JsErr ExecResult :=
  if isRetry then executeRequestBody fs api H modelId sdkPayload none
  else
    executeRequestBody fs api H modelId sdkPayload
      (some (fun H2 req =>
        executeRequestBody fs api H2 ("gemini-2.5-flash-preview-04-17") req
          none))

/-! ## Batch loading helpers of file-handler.js used by the fileops
handler -/

/-- `preparePartsWithFiles` from file-handler.js. -/
def preparePartsWithFiles (fs : FS) (filePath : FInput) (text : String) :
    List Part :=
  let filePaths := match filePath with
    | FInput.fsingle s => [s]
    | FInput.fmulti l => l
  let fileParts :=
    if filePaths.length > 0 ∧ (filePaths.headD ("")) ≠ "" then
      createFilePartsBatch fs filePaths
    else []
  let parts := fileParts ++
    (if text ≠ "" ∧ jsTrim text ≠ "" then [Part.ptext text] else [])
  if parts = [] then [Part.ptext ("Please provide a valid file or text input.")]
  else parts

/-- The fixed temporary path used by the model of `concatenateFiles` (the
source derives a fresh name from `Date.now()` in the OS temp directory). -/
def multifileTempPath : String := "/tmp/multifile.txt"

/-- A file entry freshly written by this process; the abstract base64
encoder field is represented by the content itself. -/
def mkTextEntry (content : String) : FileEntry :=
  { content := content, b64 := content, prettyJson := none }

/-- `concatenateFiles` from file-handler.js: header-separated concatenation
of the files into one temporary file, whose path is returned together with
the extended filesystem. -/
def concatenateFiles (fs : FS) (filePaths : List String)
    (separator : String := "\n\n------- NEW FILE -------\n\n") :
    Except JsErr (FS × String) :=
  match filePaths with
  | [] => Except.error (JsErr.plain ("No file paths provided"))
  | [p] => Except.ok (fs, p)
  | _ =>
    match filePaths.findSome? (fun p =>
        match fs.lookup p with
        | none => some p
        | some _ => none) with
    | some missing =>
      Except.error (JsErr.plain
        ("ENOENT: no such file or directory, open " ++ missing))
    | none =>
      let n := filePaths.length
      let combinedContent := String.join (filePaths.enum.map (fun pr =>
        let content := ((fs.lookup pr.2).map FileEntry.content).getD ("")
        "\n\n===== FILE " ++ toString (pr.1 + 1) ++ ": " ++ basenameOf pr.2 ++
          " =====\n\n" ++ content ++
          (if pr.1 + 1 < n then separator else "")))
      Except.ok ((multifileTempPath, mkTextEntry combinedContent) :: fs,
        multifileTempPath)

/-- `isLargeFile` from file-handler.js. -/
def isLargeFile (filePath : FInput) : Bool :=
  let p := match filePath with
    | FInput.fsingle s => s
    | FInput.fmulti l => l.headD ("")
  let ext := ((jsSplitOnChar (jsToLower p) '.').getLast?).getD ("")
  ext = "pdf" ∨ ext = "png" ∨ ext = "jpg" ∨ ext = "jpeg"

/-! ## The fileops tool handler (src/dist/handlers/fileops.js) and the
dispatcher wrapper (src/dist/index.js) -/

/-- The body of `handleFileops` up to its catch-all. -/
def handleFileopsTry (fs : FS) (api : ApiOracle) (H : Heap)
    (args? : Option FileopsArgs) : Heap × Except JsErr ToolResult :=
  match args? with
  | none =>
    (H, Except.error (JsErr.mcp ErrCode.InvalidParams
      ("file_path parameter is required")))
  | some args =>
    match args.file_path with
    | none =>
      (H, Except.error (JsErr.mcp ErrCode.InvalidParams
        ("file_path parameter is required")))
    | some origFp =>
      if ¬ origFp.isTruthyF then
        (H, Except.error (JsErr.mcp ErrCode.InvalidParams
          ("file_path parameter is required")))
      else
        -- existence validation (arrays are validated path by path)
        let missing? : Option String :=
          match origFp with
          | FInput.fmulti paths =>
            paths.findSome? (fun p =>
              if fileExists fs p then none else some p)
          | FInput.fsingle p =>
            if fileExists fs p then none else some p
        match missing? with
        | some p =>
          (H, Except.error (JsErr.mcp ErrCode.InvalidParams
            ("File not found: " ++ p)))
        | none =>
          -- multi-file batches are concatenated into one temporary file
          let step : Except JsErr (FS × FileopsArgs) :=
            match origFp with
            | FInput.fmulti paths =>
              if paths.length > 1 then
                match concatenateFiles fs paths with
                | Except.ok (fs2, tempFilePath) =>
                  Except.ok (fs2,
                    { args with
                      file_path := some (FInput.fsingle tempFilePath),
                      instruction := some
                        ("This is a combined file containing the contents of "
                          ++ toString paths.length ++ " files: " ++
                          jsJoin (", ") (paths.map basenameOf) ++ ".\n\n" ++
                          (args.instruction.getD (""))) })
                | Except.error e =>
                  Except.error (JsErr.mcp ErrCode.InternalError
                    ("Error processing multiple files: " ++ e.message))
              else Except.ok (fs, args)
            | FInput.fsingle _ => Except.ok (fs, args)
          match step with
          | Except.error e => (H, Except.error e)
          | Except.ok (fsCur, argsCur) =>
            -- file type of the first file (of the original argument)
            match (match origFp with
                   | FInput.fmulti [] => Except.error
                     (JsErr.plain typeErrorUndefIncludes)
                   | FInput.fmulti (p :: _) => Except.ok p
                   | FInput.fsingle s => Except.ok s :
                   Except JsErr String) with
            | Except.error e => (H, Except.error e)
            | Except.ok firstFilePath =>
              let fileType := getFileTypeCategory firstFilePath
              let targetModelId := ModelSelectorDist.selectToolModel
                TOOL_NAMES.GEM_FILEOPS
                { model_id := argsCur.model_id,
                  use_large_context_model := argsCur.use_large_context_model }
              match buildFileopsRequest argsCur with
              | Except.error e => (H, Except.error e)
              | Except.ok internalRequest0 =>
                -- explicit file loading replaces the user message's parts
                let instructionText :=
                  match internalRequest0.contents.find?
                      (fun c => c.role = "user") with
                  | some m =>
                    (match m.parts.head? with
                     | some (Part.ptext t) => t
                     | _ => "")
                  | none => ""
                let parts := preparePartsWithFiles fsCur origFp instructionText
                let internalRequest :=
                  match internalRequest0.contents.findIdx?
                      (fun c => c.role = "user") with
                  | some i =>
                    { internalRequest0 with contents :=
                        internalRequest0.contents.enum.map (fun pr =>
                          if pr.1 = i then { pr.2 with parts := parts }
                          else pr.2) }
                  | none =>
                    match internalRequest0.contents with
                    | m0 :: rest =>
                      { internalRequest0 with contents :=
                          { m0 with parts := parts } :: rest }
                    | [] => internalRequest0
                let fmtOptions (usedLarge fallbackModel : Bool) :
                    ResponseOptions :=
                  { operation := some TOOL_NAMES.GEM_FILEOPS,
                    processingType :=
                      (if ModelSelectorDist.optStrTruthy argsCur.operation
                       then argsCur.operation else some ("analyze")),
                    withFile := true,
                    fileType := some fileType,
                    isImageFile := fileType = "image",
                    customFormat :=
                      [("usedLargeContext", HVal.vbool usedLarge)] ++
                        (if fallbackModel then
                          [("fallbackModel", HVal.vbool true)] else []) }
                match executeRequest fsCur api H targetModelId
                    internalRequest false with
                | (H2, Except.ok res) =>
                  (H2, Except.ok (formatResponse H2 res.response targetModelId
                    (fmtOptions (argsCur.use_large_context_model = true) false)
                    res.rawSdkResponse))
                | (H2, Except.error apiError) =>
                  if apiError.isMcpError then (H2, Except.error apiError)
                  else if isLargeFile origFp ∧
                      targetModelId ≠ "gemini-1.5-pro" then
                    let fallbackArgs :=
                      { argsCur with use_large_context_model := true }
                    match buildFileopsRequest fallbackArgs with
                    | Except.error e => (H2, Except.error e)
                    | Except.ok fallbackRequest0 =>
                      let fallbackRequest :=
                        { fallbackRequest0 with
                          modelId := some ("gemini-1.5-pro") }
                      match executeRequest fsCur api H2 ("gemini-1.5-pro")
                          fallbackRequest false with
                      | (H3, Except.ok res) =>
                        (H3, Except.ok (formatResponse H3 res.response
                          ("gemini-1.5-pro") (fmtOptions true true)
                          res.rawSdkResponse))
                      | (H3, Except.error e) => (H3, Except.error e)
                  else (H2, Except.error apiError)

/-- The catch-all of `handleFileops`: `McpError` values are rethrown, any
other exception becomes a ToolResult with the error flag set. -/
def handleFileops (fs : FS) (api : ApiOracle) (H : Heap)
    (args? : Option FileopsArgs) : Heap × Except JsErr ToolResult :=
  match handleFileopsTry fs api H args? with
  | (H2, Except.error e) =>
    if e.isMcpError then (H2, Except.error e)
    else
      (H2, Except.ok
        { content := [{ type := "text", text := "Error: " ++ e.message }],
          isError := true })
  | (H2, Except.ok r) => (H2, Except.ok r)

/-- The catch block of the `CallToolRequestSchema` dispatcher in
src/dist/index.js: an `McpError` is rethrown to the protocol layer, any
other exception is converted to a ToolResult with the error flag set. -/
def dispatcherCatch (r : Except JsErr ToolResult) : Except JsErr ToolResult :=
  match r with
  | Except.error e =>
    if e.isMcpError then Except.error e
    else
      Except.ok
        { content := [{ type := "text", text := "Error: " ++ e.message }],
          isError := true }
  | Except.ok r => Except.ok r

instance {ε α : Type} [DecidableEq ε] [DecidableEq α] :
    DecidableEq (Except ε α) :=
  fun a b =>
    match a, b with
    | Except.ok x, Except.ok y =>
      if h : x = y then Decidable.isTrue (by rw [h])
      else Decidable.isFalse (by simp [h])
    | Except.error x, Except.error y =>
      if h : x = y then Decidable.isTrue (by rw [h])
      else Decidable.isFalse (by simp [h])
    | Except.ok _, Except.error _ => Decidable.isFalse (by simp)
    | Except.error _, Except.ok _ => Decidable.isFalse (by simp)

/-- The empty heap. -/
def emptyHeap : Heap :=
  { objFields := fun _ => [], arrElems := fun _ => [], nextId := 0 }

/-- The dispatcher route for a `gemini_fileops` tool call: the handler runs
inside the dispatcher's try, and the dispatcher's catch post-processes its
outcome.  (Routes to the other tool handlers leave this embedding's
scope.) -/
def callToolFileops (fs : FS) (api : ApiOracle) (H : Heap)
    (args? : Option FileopsArgs) : Heap × Except JsErr ToolResult :=
  match handleFileops fs api H args? with
  | (H2, r) => (H2, dispatcherCatch r)

/-! ## Verified properties -/

/-- `createFilePart` on an existing file yields a data part (inline base64
locally, a file-URI reference for a URL entry). -/
lemma createFilePart_isData (fs : FS) (p : String)
    (h : fileExists fs p = true) : (createFilePart fs p).isDataPart = true := by
  unfold createFilePart
  unfold fileExists at h
  split
  · rfl
  · match hl : fs.lookup p with
    | some e => simp [hl, Part.isDataPart]
    | none => rw [hl] at h; simp at h

/-- C7: Given a batch of N file paths of which exactly K name files that do
not exist, `createFilePartsBatch` returns exactly N parts, in positional
correspondence: each missing path yields the error-text part naming it, each
existing path a data part; so error-text parts number K and data parts
N - K, and no missing path aborts the batch. -/
theorem c7_batch_partial_failure (fs : FS) (filePaths : List String) :
    (createFilePartsBatch fs filePaths).length = filePaths.length ∧
    List.Forall₂ (fun p part =>
      (fileExists fs p = false →
        part = Part.ptext ("[Error: File not found: " ++ p ++ "]")) ∧
      (fileExists fs p = true → Part.isDataPart part = true))
      filePaths (createFilePartsBatch fs filePaths) ∧
    (createFilePartsBatch fs filePaths).countP Part.isTextPart =
      filePaths.countP (fun p => ¬ fileExists fs p) ∧
    (createFilePartsBatch fs filePaths).countP Part.isDataPart =
      filePaths.countP (fun p => fileExists fs p) := by
  refine ⟨by simp [createFilePartsBatch], ?_, ?_, ?_⟩
  · rw [createFilePartsBatch, List.forall₂_map_right_iff]
    rw [List.forall₂_same]
    intro p _
    constructor
    · intro hne
      simp [hne]
    · intro he
      simp only [he, if_true]
      exact createFilePart_isData fs p he
  · rw [createFilePartsBatch, List.countP_map]
    apply List.countP_congr
    intro p _
    by_cases he : fileExists fs p = true
    · have := createFilePart_isData fs p he
      simp only [Function.comp, he, if_true]
      cases hc : createFilePart fs p with
      | ptext t => rw [hc] at this; simp [Part.isDataPart] at this
      | pinline m d => simp [Part.isTextPart, he]
      | pfile m u => simp [Part.isTextPart, he]
    · simp only [Bool.not_eq_true] at he
      simp [Function.comp, he, Part.isTextPart]
  · rw [createFilePartsBatch, List.countP_map]
    apply List.countP_congr
    intro p _
    by_cases he : fileExists fs p = true
    · have := createFilePart_isData fs p he
      simp [Function.comp, he, this]
    · simp only [Bool.not_eq_true] at he
      simp [Function.comp, he, Part.isDataPart]

/-- C7 witness: a two-path batch with one missing file. -/
theorem c7_batch_partial_failure_witness :
    (createFilePartsBatch
      [("a.txt", { content := "x", b64 := "eA==", prettyJson := none })]
      ["a.txt", "missing.txt"]).length = 2 ∧
    (createFilePartsBatch
      [("a.txt", { content := "x", b64 := "eA==", prettyJson := none })]
      ["a.txt", "missing.txt"]) =
      [Part.pinline ("text/plain") ("eA=="),
       Part.ptext ("[Error: File not found: missing.txt]")] :=
  ⟨(c7_batch_partial_failure
      [("a.txt", { content := "x", b64 := "eA==", prettyJson := none })]
      ["a.txt", "missing.txt"]).1, by decide⟩

/-- C8 counterexample: for the path `file.xyz`, whose extension is not in
the MIME table, `getMimeType` does return the generic binary MIME type, but
`getFileTypeCategory` returns `binary` (the category the table assigns to
`application/octet-stream`), not `unknown`. -/
theorem c8_counterexample :
    getMimeType ("file.xyz") = some ("application/octet-stream") ∧
    getFileTypeCategory ("file.xyz") = "binary" ∧
    getFileTypeCategory ("file.xyz") ≠ "unknown" := by
  decide

lemma charsContains_append_left (l t needle : List Char)
    (h : charsContains l needle = true) :
    charsContains (l ++ t) needle = true := by
  induction l with
  | nil =>
    have hp : needle.isPrefixOf ([] : List Char) = true := by
      unfold charsContains at h
      simpa using h
    have hnil : needle = [] :=
      List.prefix_nil.mp ((List.isPrefixOf_iff_prefix).mp hp)
    subst hnil
    have hpre : ([] : List Char).isPrefixOf ([] ++ t) = true := by
      cases t <;> rfl
    unfold charsContains
    rw [hpre]
    simp
  | cons x xs ih =>
    unfold charsContains at h
    rw [Bool.or_eq_true] at h
    show charsContains (x :: (xs ++ t)) needle = true
    unfold charsContains
    rw [Bool.or_eq_true]
    cases h with
    | inl hp =>
      left
      have hpre : needle <+: (x :: xs) := (List.isPrefixOf_iff_prefix).mp hp
      exact (List.isPrefixOf_iff_prefix).mpr
        (hpre.trans (List.prefix_append (x :: xs) t))
    | inr hc =>
      right
      exact ih hc

lemma jsIncludes_slash_of_head (p pre : String)
    (hs : jsStartsWith p pre = true)
    (hc : charsContains pre.data ("/").data = true) :
    jsIncludes p ("/") = true := by
  unfold jsStartsWith at hs
  obtain ⟨u, hu⟩ := (List.isPrefixOf_iff_prefix).mp hs
  unfold jsIncludes
  rw [← hu]
  exact charsContains_append_left _ _ _ hc

lemma isUrl_false_of_no_slash (p : String)
    (hs : jsIncludes p ("/") = false) : isUrl p = false := by
  unfold isUrl
  cases h1 : jsStartsWith p ("http://") with
  | true =>
    exact absurd (jsIncludes_slash_of_head p _ h1 (by decide))
      (by simp [hs])
  | false =>
    cases h2 : jsStartsWith p ("https://") with
    | true =>
      exact absurd (jsIncludes_slash_of_head p _ h2 (by decide))
        (by simp [hs])
    | false =>
      cases h3 : jsStartsWith p ("gs://") with
      | true =>
        exact absurd (jsIncludes_slash_of_head p _ h3 (by decide))
          (by simp [hs])
      | false => simp

/-- C8 amended: classification is total and never errors.  A slash-free
path whose extension is missing from the MIME table gets the generic binary
MIME type and category `binary`; a slash-free path whose extension is in the
MIME table gets that MIME type, and its category is the category table's
entry for it, defaulting to `unknown` when the MIME type has no category
entry (as for `.exe` and `.wasm`); an input containing a slash is treated as
a MIME-type string and falls back to category `unknown` when absent from the
category table; an `http(s)` URL that fails to parse degrades to the generic
binary MIME type. -/
theorem c8_classifier_totality (p : String) :
    (jsIncludes p ("/") = false → p ≠ "" →
      MIME_TYPES.lookup (jsToLower (extnameOf p)) = none →
      getMimeType p = some ("application/octet-stream") ∧
        getFileTypeCategory p = "binary") ∧
    (∀ mime, jsIncludes p ("/") = false → p ≠ "" →
      MIME_TYPES.lookup (jsToLower (extnameOf p)) = some mime →
      getMimeType p = some mime ∧
        getFileTypeCategory p =
          (FILE_TYPE_CATEGORIES.lookup mime).getD ("unknown")) ∧
    (jsIncludes p ("/") = true → FILE_TYPE_CATEGORIES.lookup p = none →
      getFileTypeCategory p = "unknown") ∧
    ((jsStartsWith p ("http://") = true ∨ jsStartsWith p ("https://") = true) →
      httpUrlPathname p = none →
      getMimeType p = some ("application/octet-stream")) := by
  refine ⟨?_, ?_, ?_, ?_⟩
  · intro hs hne hl
    have hnu : isUrl p = false := isUrl_false_of_no_slash p hs
    have hm : getMimeType p = some ("application/octet-stream") := by
      unfold getMimeType
      simp [hne, hnu, mimeFromExt, hl]
    refine ⟨hm, ?_⟩
    unfold getFileTypeCategory
    rw [hs, hm]
    simp
    decide
  · intro mime hs hne hl
    have hnu : isUrl p = false := isUrl_false_of_no_slash p hs
    have hm : getMimeType p = some mime := by
      unfold getMimeType
      simp [hne, hnu, mimeFromExt, hl]
    refine ⟨hm, ?_⟩
    unfold getFileTypeCategory
    rw [hs, hm]
    simp
  · intro hs hl
    unfold getFileTypeCategory
    simp [hs, hl]
  · intro hs hp
    have hne : p ≠ "" := by
      intro he
      subst he
      cases hs with
      | inl h => exact absurd h (by decide)
      | inr h => exact absurd h (by decide)
    have hgs : jsStartsWith p ("gs://") = false := by
      cases hg : jsStartsWith p ("gs://") with
      | false => rfl
      | true =>
        exfalso
        have h1 : ("gs://").data <+: p.data :=
          (List.isPrefixOf_iff_prefix).mp hg
        cases hs with
        | inl hhttp =>
          have h2 : ("http://").data <+: p.data :=
            (List.isPrefixOf_iff_prefix).mp hhttp
          rcases List.prefix_or_prefix_of_prefix h1 h2 with h | h
          · exact absurd ((List.isPrefixOf_iff_prefix).mpr h) (by decide)
          · exact absurd ((List.isPrefixOf_iff_prefix).mpr h) (by decide)
        | inr hhttps =>
          have h2 : ("https://").data <+: p.data :=
            (List.isPrefixOf_iff_prefix).mp hhttps
          rcases List.prefix_or_prefix_of_prefix h1 h2 with h | h
          · exact absurd ((List.isPrefixOf_iff_prefix).mpr h) (by decide)
          · exact absurd ((List.isPrefixOf_iff_prefix).mpr h) (by decide)
    have hurl : isUrl p = true := by
      unfold isUrl
      cases hs with
      | inl h => simp [h]
      | inr h => simp [h]
    unfold getMimeType
    simp [hne, hurl, hgs, hp]

/-- C8 witness: the four branches of the totality theorem at concrete
inputs, including the known extension `.exe` whose MIME type has no category
entry. -/
theorem c8_classifier_totality_witness :
    (getMimeType ("file.xyz") = some ("application/octet-stream") ∧
      getFileTypeCategory ("file.xyz") = "binary") ∧
    (getMimeType ("a.exe") = some ("application/x-msdownload") ∧
      getFileTypeCategory ("a.exe") = "unknown") ∧
    getFileTypeCategory ("application/x-unregistered") = "unknown" ∧
    getMimeType ("http://") = some ("application/octet-stream") := by
  refine ⟨(c8_classifier_totality ("file.xyz")).1 (by decide) (by decide)
    (by decide), ⟨?_, ?_⟩, ?_, ?_⟩
  · exact ((c8_classifier_totality ("a.exe")).2.1 ("application/x-msdownload")
      (by decide) (by decide) (by decide)).1
  · rw [((c8_classifier_totality ("a.exe")).2.1 ("application/x-msdownload")
      (by decide) (by decide) (by decide)).2]
    decide
  · exact (c8_classifier_totality ("application/x-unregistered")).2.2.1
      (by decide) (by decide)
  · exact (c8_classifier_totality ("http://")).2.2.2 (Or.inl (by decide))
      (by decide)

/-- C3 counterexample: `selectModel` returns the explicit override
`gemini-2.5-pro` unchanged even though that identifier is a FallbackTable
key (mapped to `gemini-1.5-pro`); moreover the dist FallbackTable maps
`gemini-2.5-flash-preview-04-17` to itself, so even a table lookup returns
that original identifier. -/
theorem c3_counterexample :
    ModelSelectorNew.selectModel { modelId := some ("gemini-2.5-pro") } =
      "gemini-2.5-pro" ∧
    ModelSelectorNew.MODEL_FALLBACKS.lookup ("gemini-2.5-pro") =
      some ("gemini-1.5-pro") ∧
    ("gemini-1.5-pro" : String) ≠ "gemini-2.5-pro" ∧
    ModelSelectorDist.getUsableModelId ("gemini-2.5-flash-preview-04-17") =
      "gemini-2.5-flash-preview-04-17" ∧
    ModelSelectorDist.MODEL_FALLBACKS.lookup
      ("gemini-2.5-flash-preview-04-17") =
      some ("gemini-2.5-flash-preview-04-17") := by
  decide

/-- C3 amended: identifiers resolved through `selectModelId` (ts variant)
and through the dist per-tool selectors are passed through
`getUsableModelId`, and every key of the ts FallbackTable maps to its
substitute, never the original; but `selectModel` returns an explicit
override unchanged without consulting the table, the dist table's
`gemini-2.5-flash-preview-04-17` entry maps to itself, and — since the
legacy `TOOL_NAMES.SEARCH`/`REASON` aliases are bound to the `gemini_*`
names — a raw `search`/`reason` tool name reaches `selectToolModel`'s
default branch, which ignores the override entirely. -/
theorem c3_fallback_table_paths :
    (∀ req : ModelSelectorNew.GeminiRequestSel, ∀ m, req.model_id = some m →
      m ≠ "" → ModelSelectorNew.selectModelId req =
        ModelSelectorNew.getUsableModelId m) ∧
    (∀ kv ∈ ModelSelectorNew.MODEL_FALLBACKS,
      ModelSelectorNew.getUsableModelId kv.1 = kv.2 ∧ kv.2 ≠ kv.1) ∧
    (∀ opts : ModelSelectorNew.ModelSelectionOptions, ∀ m,
      opts.modelId = some m → m ≠ "" →
      ModelSelectorNew.selectModel opts = m) ∧
    (∀ toolName, toolName ∈ [TOOL_NAMES.GEM_SEARCH, TOOL_NAMES.GEM_REASON,
        TOOL_NAMES.GEM_CODE, TOOL_NAMES.GEM_FILEOPS, TOOL_NAMES.SEARCH,
        TOOL_NAMES.REASON] →
      ∀ args : ModelSelectorDist.SelectorArgs, ∀ m, args.model_id = some m →
      m ≠ "" → ModelSelectorDist.selectToolModel toolName args =
        ModelSelectorDist.getUsableModelId m) ∧
    (∀ kv ∈ ModelSelectorDist.MODEL_FALLBACKS,
      ModelSelectorDist.getUsableModelId kv.1 = kv.2 ∧
        (kv.1 ≠ "gemini-2.5-flash-preview-04-17" → kv.2 ≠ kv.1)) ∧
    (∀ t, t ∉ [TOOL_NAMES.GEM_SEARCH, TOOL_NAMES.GEM_REASON,
        TOOL_NAMES.GEM_CODE, TOOL_NAMES.GEM_FILEOPS, TOOL_NAMES.SEARCH,
        TOOL_NAMES.REASON] →
      ∀ args : ModelSelectorDist.SelectorArgs,
      ModelSelectorDist.selectToolModel t args =
        ModelSelectorDist.getUsableModelId ("gemini-2.0-flash-001")) := by
  refine ⟨?_, by decide, ?_, ?_, by decide, ?_⟩
  · intro req m hm hne
    unfold ModelSelectorNew.selectModelId
    rw [hm]
    simp [hne]
  · intro opts m hm hne
    unfold ModelSelectorNew.selectModel
    rw [hm]
    simp [hne]
  · intro toolName htool args m hm hne
    have hS : ModelSelectorDist.selectSearchModel args =
        ModelSelectorDist.getUsableModelId m := by
      unfold ModelSelectorDist.selectSearchModel
      rw [hm]
      simp [ModelSelectorDist.optStrTruthy, hne]
    have hR : ModelSelectorDist.selectReasonModel args =
        ModelSelectorDist.getUsableModelId m := by
      unfold ModelSelectorDist.selectReasonModel
      rw [hm]
      simp [ModelSelectorDist.optStrTruthy, hne]
    have hC : ModelSelectorDist.selectCodeModel args =
        ModelSelectorDist.getUsableModelId m := by
      unfold ModelSelectorDist.selectCodeModel
      rw [hm]
      simp [ModelSelectorDist.optStrTruthy, hne]
    have hF : ModelSelectorDist.selectFileopsModel args =
        ModelSelectorDist.getUsableModelId m := by
      unfold ModelSelectorDist.selectFileopsModel
      rw [hm]
      simp [ModelSelectorDist.optStrTruthy, hne]
    fin_cases htool
    · unfold ModelSelectorDist.selectToolModel
      rw [if_pos rfl]
      exact hS
    · unfold ModelSelectorDist.selectToolModel
      rw [if_neg (by decide), if_pos rfl]
      exact hR
    · unfold ModelSelectorDist.selectToolModel
      rw [if_neg (by decide), if_neg (by decide), if_pos rfl]
      exact hC
    · unfold ModelSelectorDist.selectToolModel
      rw [if_neg (by decide), if_neg (by decide), if_neg (by decide),
        if_pos rfl]
      exact hF
    · unfold ModelSelectorDist.selectToolModel
      rw [if_pos (by decide)]
      exact hS
    · unfold ModelSelectorDist.selectToolModel
      rw [if_neg (by decide), if_pos (by decide)]
      exact hR
  · intro t ht args
    rw [List.mem_cons, List.mem_cons, List.mem_cons, List.mem_cons,
      List.mem_cons, List.mem_singleton] at ht
    push_neg at ht
    obtain ⟨h1, h2, h3, h4, h5, h6⟩ := ht
    unfold ModelSelectorDist.selectToolModel
    rw [if_neg h1, if_neg h2, if_neg h3, if_neg h4, if_neg h5, if_neg h6]

/-- C3 amended witness: the override `gemini-2.5-pro` is mapped by
`selectModelId` to `gemini-1.5-pro`, while `selectModel` returns it
unchanged; a raw `search` tool name sends the same override to the default
branch, which discards it. -/
theorem c3_fallback_table_paths_witness :
    ModelSelectorNew.selectModelId { model_id := some ("gemini-2.5-pro") } =
      "gemini-1.5-pro" ∧
    ModelSelectorNew.selectModel { modelId := some ("gemini-2.5-pro") } =
      "gemini-2.5-pro" ∧
    ModelSelectorDist.selectToolModel TOOL_NAMES.GEM_FILEOPS
      { model_id := some ("gemini-2.5-pro") } =
      ModelSelectorDist.getUsableModelId ("gemini-2.5-pro") ∧
    ModelSelectorDist.selectToolModel ("search")
      { model_id := some ("gemini-2.5-pro") } =
      ModelSelectorDist.getUsableModelId ("gemini-2.0-flash-001") ∧
    ModelSelectorDist.getUsableModelId ("gemini-2.0-flash-001") ≠
      ModelSelectorDist.getUsableModelId ("gemini-2.5-pro") := by
  refine ⟨?_, ?_, ?_, ?_, by decide⟩
  · rw [c3_fallback_table_paths.1 { model_id := some ("gemini-2.5-pro") }
      ("gemini-2.5-pro") rfl (by decide)]
    decide
  · exact c3_fallback_table_paths.2.2.1
      { modelId := some ("gemini-2.5-pro") } ("gemini-2.5-pro") rfl (by decide)
  · exact c3_fallback_table_paths.2.2.2.1 TOOL_NAMES.GEM_FILEOPS (by decide)
      { model_id := some ("gemini-2.5-pro") } ("gemini-2.5-pro") rfl (by decide)
  · exact c3_fallback_table_paths.2.2.2.2.2 ("search") (by decide)
      { model_id := some ("gemini-2.5-pro") }

/-- An oracle that reports, through the error message, whether the provider
call carried the googleSearch tool declaration. -/
def c4Oracle : ApiOracle := fun _ wp =>
  if wp.tools = some [ToolDecl.googleSearch] then
    ApiOutcome.failure none none ("saw googleSearch declaration")
  else ApiOutcome.failure none none ("no tools declaration")

/-- C4 counterexample: a `gemini_search` request resolved to
`gemini-1.5-pro` — a model that is not search-grounding eligible
(`isFlashModel` is false) — still reaches the provider with the
googleSearch declaration attached, because the execution engine attaches it
from the tool name alone. -/
theorem c4_counterexample :
    isFlashModel ("gemini-1.5-pro") = false ∧
    (executeRequest [] c4Oracle emptyHeap ("gemini-1.5-pro")
      { contents := [{ role := "user", parts := [Part.ptext ("q")] }],
        toolName := some ("gemini_search") } false).2 =
      Except.error (JsErr.mcp ErrCode.InternalError
        ("Error: saw googleSearch declaration")) := by
  decide

/-- C4 amended: `transformToSdkFormat` attaches the googleSearch
declaration exactly when the tool name is `gemini_search` and the resolved
model is flash-family eligible (and attaches nothing else); but the
execution engine's final provider payload attaches the declaration whenever
the tool name is `gemini_search`, regardless of the resolved model. -/
theorem c4_search_tool_gating :
    (∀ fs req modelId,
      (transformToSdkFormat fs req modelId).tools = some [ToolDecl.googleSearch]
        ∨ (transformToSdkFormat fs req modelId).tools = none) ∧
    (∀ fs req modelId,
      (transformToSdkFormat fs req modelId).tools =
          some [ToolDecl.googleSearch] ↔
        (req.toolName = some ("gemini_search") ∧
          ∃ m, modelId = some m ∧ m ≠ "" ∧ isFlashModel m = true)) ∧
    (∀ req : SdkRequest,
      (wirePayloadOf req).tools = some [ToolDecl.googleSearch] ↔
        req.toolName = some ("gemini_search")) := by
  have hdef : ∀ fs req modelId, (transformToSdkFormat fs req modelId).tools =
      if (req.toolName == some ("gemini_search")) &&
          (match modelId with
           | some m => m != "" && isFlashModel m
           | none => false) then
        some [ToolDecl.googleSearch]
      else none := fun _ _ _ => rfl
  refine ⟨?_, ?_, ?_⟩
  · intro fs req modelId
    rw [hdef]
    split
    · exact Or.inl rfl
    · exact Or.inr rfl
  · intro fs req modelId
    rw [hdef]
    constructor
    · intro h
      split at h
      · next hc =>
        rw [Bool.and_eq_true] at hc
        refine ⟨by simpa using hc.1, ?_⟩
        match modelId, hc.2 with
        | some m, hm =>
          rw [Bool.and_eq_true] at hm
          exact ⟨m, rfl, by simpa using hm.1, hm.2⟩
      · exact absurd h (by simp)
    · rintro ⟨ht, m, hm, hne, hfl⟩
      subst hm
      rw [if_pos]
      rw [Bool.and_eq_true]
      exact ⟨by simpa using ht, by simp [hne, hfl]⟩
  · intro req
    have hdef2 : (wirePayloadOf req).tools =
        if req.toolName = some ("gemini_search") then
          some [ToolDecl.googleSearch]
        else none := rfl
    rw [hdef2]
    constructor
    · intro h
      by_cases hc : req.toolName = some ("gemini_search")
      · exact hc
      · rw [if_neg hc] at h
        exact absurd h (by simp)
    · intro h
      rw [if_pos h]

/-- C4 amended witness: the transform declines the tool for a non-flash
model and attaches it for a flash model; the wire payload attaches it
regardless. -/
theorem c4_search_tool_gating_witness :
    (transformToSdkFormat [] { toolName := some ("gemini_search") }
      (some ("gemini-1.5-pro"))).tools = none ∧
    (transformToSdkFormat [] { toolName := some ("gemini_search") }
      (some ("gemini-2.0-flash-001"))).tools = some [ToolDecl.googleSearch] ∧
    (wirePayloadOf { contents := [], toolName := some ("gemini_search") }).tools
      = some [ToolDecl.googleSearch] := by
  refine ⟨?_, ?_, ?_⟩
  · have h := (c4_search_tool_gating.2.1 []
      { toolName := some ("gemini_search") } (some ("gemini-1.5-pro")))
    rcases c4_search_tool_gating.1 []
        { toolName := some ("gemini_search") } (some ("gemini-1.5-pro")) with
      hg | hg
    · exfalso
      rcases (h.mp hg).2 with ⟨m, hm, _, hfl⟩
      cases hm
      exact absurd hfl (by decide)
    · exact hg
  · exact (c4_search_tool_gating.2.1 [] { toolName := some ("gemini_search") }
      (some ("gemini-2.0-flash-001"))).mpr
      ⟨rfl, "gemini-2.0-flash-001", rfl, by decide, by decide⟩
  · exact (c4_search_tool_gating.2.2
      { contents := [], toolName := some ("gemini_search") }).mpr rfl

/-- The first system-role message's first text part, as the hoisting step
reads it (`sysMsg?.parts?.[0]?.text`). -/
def firstSystemText (internal : InternalRequest) : Option String :=
  (internal.messages.find? (fun m => m.role = "system")).bind (fun m =>
    match m.parts.head? with
    | some (Part.ptext t) => some t
    | _ => none)

/-- C5: `buildRequest` returns contents that are exactly the non-system
messages (so no system-role message remains), and its `systemInstruction`
is precisely the first system message's text when that text is non-empty
after trimming — absent whenever the text trims to empty or no system
message exists. -/
theorem c5_system_hoisting (internal : InternalRequest) :
    (buildRequest internal).contents =
      internal.messages.filter (fun m => ¬ m.role = "system") ∧
    (∀ m ∈ (buildRequest internal).contents, ¬ m.role = "system") ∧
    (∀ t, (buildRequest internal).systemInstruction = some t ↔
      (firstSystemText internal = some t ∧ jsTrim t ≠ "")) := by
  have hc : (buildRequest internal).contents =
      internal.messages.filter (fun m => ¬ m.role = "system") := rfl
  refine ⟨hc, ?_, ?_⟩
  · intro m hm
    rw [hc] at hm
    simpa using (List.mem_filter.mp hm).2
  · intro t
    have hsys : (buildRequest internal).systemInstruction =
        match internal.messages.find? (fun m => m.role = "system") with
        | some m =>
          (match m.parts.head? with
           | some (Part.ptext s) => if jsTrim s ≠ "" then some s else none
           | _ => none)
        | none => none := rfl
    rw [hsys]
    unfold firstSystemText
    cases hf : internal.messages.find? (fun m => m.role = "system") with
    | none => simp
    | some m =>
      cases hp : m.parts.head? with
      | none => simp [hp]
      | some part =>
        cases part with
        | ptext s =>
          simp only [hp, Option.some_bind]
          by_cases hts : jsTrim s = ""
          · rw [if_neg (by simpa using hts)]
            constructor
            · intro h
              exact absurd h (by simp)
            · rintro ⟨hst, hn⟩
              rw [Option.some.injEq] at hst
              subst hst
              exact absurd hts hn
          · rw [if_pos (by simpa using hts)]
            constructor
            · intro h
              rw [Option.some.injEq] at h
              subst h
              exact ⟨rfl, hts⟩
            · exact fun h => h.1
        | pinline mt d => simp [hp]
        | pfile mt u => simp [hp]

/-- C5 witness: a whitespace-only system prompt is dropped entirely, a real
one is hoisted, and contents never keep the system role. -/
theorem c5_system_hoisting_witness :
    (buildRequest { messages :=
      [{ role := "system", parts := [Part.ptext ("  be brief  ")] },
       { role := "user", parts := [Part.ptext ("hi")] }] }).systemInstruction =
      some ("  be brief  ") ∧
    (buildRequest { messages :=
      [{ role := "system", parts := [Part.ptext ("   ")] },
       { role := "user", parts := [Part.ptext ("hi")] }] }).systemInstruction =
      none ∧
    (buildRequest { messages :=
      [{ role := "system", parts := [Part.ptext ("  be brief  ")] },
       { role := "user", parts := [Part.ptext ("hi")] }] }).contents =
      [{ role := "user", parts := [Part.ptext ("hi")] }] := by
  refine ⟨?_, ?_, ?_⟩
  · exact ((c5_system_hoisting { messages :=
      [{ role := "system", parts := [Part.ptext ("  be brief  ")] },
       { role := "user", parts := [Part.ptext ("hi")] }] }).2.2
      ("  be brief  ")).mpr ⟨by decide, by decide⟩
  · cases hv : (buildRequest { messages :=
      [{ role := "system", parts := [Part.ptext ("   ")] },
       { role := "user", parts := [Part.ptext ("hi")] }] }).systemInstruction
      with
    | none => rfl
    | some t =>
      exfalso
      have := ((c5_system_hoisting { messages :=
        [{ role := "system", parts := [Part.ptext ("   ")] },
         { role := "user", parts := [Part.ptext ("hi")] }] }).2.2 t).mp hv
      have ht : t = "   " := by
        have h1 := this.1
        unfold firstSystemText at h1
        simp [List.find?] at h1
        exact h1.symm
      rw [ht] at this
      exact this.2 (by decide)
  · exact (c5_system_hoisting _).1

/-- C1 counterexample: `fileops` called with `file_path: "missing.txt"`
does not produce a ToolResult envelope with `isError: true` — the
`McpError` raised for the missing file is rethrown by both the handler's
catch-all and the outermost dispatcher wrapper, escaping to the protocol
layer as a thrown typed error. -/
theorem c1_counterexample :
    (callToolFileops [] (fun _ _ => ApiOutcome.failureNonError) emptyHeap
      (some { file_path := some (FInput.fsingle ("missing.txt")) })).2 =
      Except.error (JsErr.mcp ErrCode.InvalidParams
        ("File not found: missing.txt")) := by
  decide

/-- C1 amended: the outermost wrapper returns a ToolResult with
`isError: true` and an `Error:` message only for exceptions that are not
`McpError`s (for example the `TypeError` raised by an empty `file_path`
array); `McpError`s — including the missing-file case, whose message names
the missing path — are rethrown to the protocol layer instead of being
returned as ToolResult envelopes. -/
theorem c1_error_envelope :
    (∀ m : String, dispatcherCatch (Except.error (JsErr.plain m)) =
      Except.ok { content := [{ type := "text", text := "Error: " ++ m }],
                  isError := true }) ∧
    (∀ c m, dispatcherCatch (Except.error (JsErr.mcp c m)) =
      Except.error (JsErr.mcp c m)) ∧
    (∀ (fs : FS) (api : ApiOracle) (H : Heap) (p : String), p ≠ "" →
      fileExists fs p = false →
      (callToolFileops fs api H
        (some { file_path := some (FInput.fsingle p) })).2 =
        Except.error (JsErr.mcp ErrCode.InvalidParams
          ("File not found: " ++ p))) ∧
    (∀ (fs : FS) (api : ApiOracle) (H : Heap),
      (callToolFileops fs api H
        (some { file_path := some (FInput.fmulti []) })).2 =
        Except.ok
          { content :=
              [{ type := "text",
                 text := "Error: " ++ typeErrorUndefIncludes }],
            isError := true }) := by
  refine ⟨fun m => rfl, fun c m => rfl, ?_, ?_⟩
  · intro fs api H p hp hf
    simp [callToolFileops, handleFileops, handleFileopsTry, dispatcherCatch,
      FInput.isTruthyF, hp, hf, JsErr.isMcpError]
  · intro fs api H
    simp [callToolFileops, handleFileops, handleFileopsTry, dispatcherCatch,
      FInput.isTruthyF, JsErr.isMcpError, JsErr.message]

/-- C1 amended witness: the wrapper facts applied at concrete inputs. -/
theorem c1_error_envelope_witness :
    dispatcherCatch (Except.error (JsErr.plain ("boom"))) =
      Except.ok { content := [{ type := "text", text := "Error: boom" }],
                  isError := true } ∧
    (callToolFileops [] (fun _ _ => ApiOutcome.failureNonError) emptyHeap
      (some { file_path := some (FInput.fsingle ("gone.txt")) })).2 =
      Except.error (JsErr.mcp ErrCode.InvalidParams
        ("File not found: gone.txt")) ∧
    (callToolFileops [] (fun _ _ => ApiOutcome.failureNonError) emptyHeap
      (some { file_path := some (FInput.fmulti []) })).2 =
      Except.ok
        { content :=
            [{ type := "text",
               text := "Error: " ++ typeErrorUndefIncludes }],
          isError := true } :=
  ⟨c1_error_envelope.1 ("boom"),
   c1_error_envelope.2.2.1 [] (fun _ _ => ApiOutcome.failureNonError)
     emptyHeap ("gone.txt") (by decide) (by decide),
   c1_error_envelope.2.2.2 [] (fun _ _ => ApiOutcome.failureNonError)
     emptyHeap⟩

/-- An oracle that rate-limits `gemini-1.5-pro` and succeeds on every other
model. -/
def c2Oracle : ApiOracle := fun m _ =>
  if m = "gemini-1.5-pro" then
    ApiOutcome.failure (some 429) none ("rate limited")
  else ApiOutcome.success HVal.vnull

/-- C2 counterexample: a rate-limit failure on `gemini-1.5-pro` — an
advanced-tier "pro" model this system runs fileops large-context requests
on — propagates immediately as a typed error with no model substitution,
even though a call to the designated flash sibling would succeed; the
automatic retry is reserved for ids containing `2.5-pro`. -/
theorem c2_counterexample :
    jsIncludes ("gemini-1.5-pro") ("pro") = true ∧
    (executeRequest [] c2Oracle emptyHeap ("gemini-1.5-pro")
      { contents := [{ role := "user", parts := [Part.ptext ("q")] }] }
      false).2 =
      Except.error (JsErr.mcp ErrCode.InvalidParams
        ("Rate limit exceeded for gemini-1.5-pro. Please try again later.")) ∧
    (executeRequest [] c2Oracle emptyHeap ("gemini-2.5-flash-preview-04-17")
      { contents := [{ role := "user", parts := [Part.ptext ("q")] }] }
      false).2.isOk = true := by
  decide

/-- C2 amended: a rate-limited failure triggers exactly one automatic
substitution, and only for models whose id contains `2.5-pro`: the request
is reissued once against `gemini-2.5-flash-preview-04-17` with the same
(preprocessed) payload; a rate-limited failure on an already-substituted
call, on any other model (including the advanced-tier `gemini-1.5-pro`), or
any other failure class, propagates immediately as a typed `McpError`. -/
theorem c2_rate_limit_fallback :
    (∀ (fs : FS) (api : ApiOracle) (H : Heap) (modelId : String)
        (p : SdkRequest) (code status : Option Int) (message : String),
      jsIncludes modelId ("2.5-pro") = true →
      api modelId (wirePayloadOf
        (augmentFileParts fs modelId { p with modelId := some modelId })) =
        ApiOutcome.failure code status message →
      (errCodeNum code status = some 429 ∨ isRateLimitMessage message) →
      executeRequest fs api H modelId p false =
        executeRequest fs api H ("gemini-2.5-flash-preview-04-17")
          (augmentFileParts fs modelId { p with modelId := some modelId })
          true) ∧
    (∀ (fs : FS) (modelId : String) (p : SdkRequest),
      p.file_path = none → p.file_context = none →
      augmentFileParts fs modelId { p with modelId := some modelId } =
        { p with modelId := some modelId }) ∧
    (∀ (fs : FS) (api : ApiOracle) (H : Heap) (modelId : String)
        (p : SdkRequest) (code status : Option Int) (message : String),
      api modelId (wirePayloadOf
        (augmentFileParts fs modelId { p with modelId := some modelId })) =
        ApiOutcome.failure code status message →
      (errCodeNum code status = some 429 ∨ isRateLimitMessage message) →
      executeRequest fs api H modelId p true =
        (H, Except.error (JsErr.mcp ErrCode.InvalidParams
          ("Rate limit exceeded for " ++ modelId ++
            ". Please try again later.")))) ∧
    (∀ (fs : FS) (api : ApiOracle) (H : Heap) (modelId : String)
        (p : SdkRequest) (code status : Option Int) (message : String),
      jsIncludes modelId ("2.5-pro") = false →
      api modelId (wirePayloadOf
        (augmentFileParts fs modelId { p with modelId := some modelId })) =
        ApiOutcome.failure code status message →
      (errCodeNum code status = some 429 ∨ isRateLimitMessage message) →
      executeRequest fs api H modelId p false =
        (H, Except.error (JsErr.mcp ErrCode.InvalidParams
          ("Rate limit exceeded for " ++ modelId ++
            ". Please try again later.")))) ∧
    (∀ (fs : FS) (api : ApiOracle) (H : Heap) (modelId : String)
        (p : SdkRequest) (code status : Option Int) (message : String)
        (isRetry : Bool),
      api modelId (wirePayloadOf
        (augmentFileParts fs modelId { p with modelId := some modelId })) =
        ApiOutcome.failure code status message →
      ¬ (errCodeNum code status = some 429 ∨ isRateLimitMessage message) →
      ∃ e, executeRequest fs api H modelId p isRetry = (H, Except.error e) ∧
        e.isMcpError = true) := by
  refine ⟨?_, ?_, ?_, ?_, ?_⟩
  · intro fs api H modelId p code status message hincl hapi hrate
    show executeRequestBody fs api H modelId p
        (some (fun H2 req => executeRequestBody fs api H2
          ("gemini-2.5-flash-preview-04-17") req none)) =
      executeRequestBody fs api H ("gemini-2.5-flash-preview-04-17")
        (augmentFileParts fs modelId { p with modelId := some modelId }) none
    unfold executeRequestBody
    simp only [hapi]
    rw [if_pos hrate, hincl]
  · intro fs modelId p hfp hfc
    unfold augmentFileParts
    simp [hfp, hfc, optFTruthy]
  · intro fs api H modelId p code status message hapi hrate
    show executeRequestBody fs api H modelId p none = _
    unfold executeRequestBody
    simp only [hapi]
    rw [if_pos hrate]
  · intro fs api H modelId p code status message hincl hapi hrate
    show executeRequestBody fs api H modelId p
        (some (fun H2 req => executeRequestBody fs api H2
          ("gemini-2.5-flash-preview-04-17") req none)) = _
    unfold executeRequestBody
    simp only [hapi]
    rw [if_pos hrate, hincl]
  · intro fs api H modelId p code status message isRetry hapi hnot
    cases isRetry
    · show ∃ e, executeRequestBody fs api H modelId p
          (some (fun H2 req => executeRequestBody fs api H2
            ("gemini-2.5-flash-preview-04-17") req none)) =
          (H, Except.error e) ∧ e.isMcpError = true
      unfold executeRequestBody
      simp only [hapi]
      rw [if_neg hnot]
      split
      · exact ⟨_, rfl, rfl⟩
      · split
        · exact ⟨_, rfl, rfl⟩
        · split
          · exact ⟨_, rfl, rfl⟩
          · exact ⟨_, rfl, rfl⟩
    · show ∃ e, executeRequestBody fs api H modelId p none =
          (H, Except.error e) ∧ e.isMcpError = true
      unfold executeRequestBody
      simp only [hapi]
      rw [if_neg hnot]
      split
      · exact ⟨_, rfl, rfl⟩
      · split
        · exact ⟨_, rfl, rfl⟩
        · split
          · exact ⟨_, rfl, rfl⟩
          · exact ⟨_, rfl, rfl⟩

/-- An oracle that rate-limits the 2.5-pro reasoning model and succeeds on
everything else. -/
def c2wOracle : ApiOracle := fun m _ =>
  if m = "gemini-2.5-pro-exp-03-25" then
    ApiOutcome.failure (some 429) none ("rate limited")
  else ApiOutcome.success HVal.vnull

/-- C2 amended witness: the single substitution and the no-second-retry
rule at concrete inputs. -/
theorem c2_rate_limit_fallback_witness :
    executeRequest [] c2wOracle emptyHeap ("gemini-2.5-pro-exp-03-25")
      { contents := [{ role := "user", parts := [Part.ptext ("q")] }] }
      false =
      executeRequest [] c2wOracle emptyHeap ("gemini-2.5-flash-preview-04-17")
        (augmentFileParts [] ("gemini-2.5-pro-exp-03-25")
          { contents := [{ role := "user", parts := [Part.ptext ("q")] }],
            modelId := some ("gemini-2.5-pro-exp-03-25") }) true ∧
    executeRequest [] c2wOracle emptyHeap ("gemini-2.5-pro-exp-03-25")
      { contents := [{ role := "user", parts := [Part.ptext ("q")] }] }
      true =
      (emptyHeap, Except.error (JsErr.mcp ErrCode.InvalidParams
        ("Rate limit exceeded for gemini-2.5-pro-exp-03-25. Please try again later."))) :=
  ⟨c2_rate_limit_fallback.1 [] c2wOracle emptyHeap ("gemini-2.5-pro-exp-03-25")
    { contents := [{ role := "user", parts := [Part.ptext ("q")] }] }
    (some 429) none ("rate limited") (by decide) (by decide)
    (Or.inl (by decide)),
   c2_rate_limit_fallback.2.2.1 [] c2wOracle emptyHeap
    ("gemini-2.5-pro-exp-03-25")
    { contents := [{ role := "user", parts := [Part.ptext ("q")] }] }
    (some 429) none ("rate limited") (by decide) (Or.inl (by decide))⟩

/-- A `text` field with trimmed length above 10 reachable within `d` levels
of object/array indirection: the specification-side reading of what the
bounded scan collects. -/
inductive TextWithinDepth (H : Heap) : HVal → Nat → String → Prop where
  | here {v : HVal} {d : Nat} {s : String}
      (hmem : ("text", HVal.vstr s) ∈ nodeEntries H v)
      (hlen : jsLength (jsTrim s) > 10) : TextWithinDepth H v d s
  | stepObj {v : HVal} {d : Nat} {s : String} {k : String} {id : Nat}
      (hmem : (k, HVal.vobj id) ∈ nodeEntries H v)
      (h : TextWithinDepth H (HVal.vobj id) d s) : TextWithinDepth H v (d + 1) s
  | stepArr {v : HVal} {d : Nat} {s : String} {k : String} {id : Nat}
      (hmem : (k, HVal.varr id) ∈ nodeEntries H v)
      (h : TextWithinDepth H (HVal.varr id) d s) : TextWithinDepth H v (d + 1) s

lemma ftpAux_zero (H : Heap) (v : HVal) :
    findTextPropertiesAux H 0 v = [] := rfl

lemma ftpAux_succ (H : Heap) (f : Nat) (v : HVal) :
    findTextPropertiesAux H (f + 1) v =
      (nodeEntries H v).flatMap (fun kv =>
        match kv.2 with
        | HVal.vstr s =>
          if kv.1 = "text" ∧ jsLength (jsTrim s) > 10 then [s] else []
        | HVal.vobj _ => findTextPropertiesAux H f kv.2
        | HVal.varr _ => findTextPropertiesAux H f kv.2
        | _ => []) := rfl

lemma mem_ftpAux (H : Heap) :
    ∀ (d : Nat) (v : HVal) (s : String),
      s ∈ findTextPropertiesAux H (d + 1) v ↔ TextWithinDepth H v d s := by
  intro d
  induction d with
  | zero =>
    intro v s
    rw [ftpAux_succ, List.mem_flatMap]
    constructor
    · rintro ⟨kv, hkv, hs⟩
      match kv, hs with
      | (k, HVal.vstr t), hs =>
        by_cases hc : k = "text" ∧ jsLength (jsTrim t) > 10
        · simp only [if_pos hc] at hs
          obtain rfl := List.mem_singleton.mp hs
          obtain ⟨rfl, hlen⟩ := hc
          exact TextWithinDepth.here hkv hlen
        · simp only [if_neg hc] at hs
          cases hs
      | (k, HVal.vobj id), hs =>
        rw [ftpAux_zero] at hs
        cases hs
      | (k, HVal.varr id), hs =>
        rw [ftpAux_zero] at hs
        cases hs
      | (k, HVal.vnum n), hs => cases hs
      | (k, HVal.vbool b), hs => cases hs
      | (k, HVal.vnull), hs => cases hs
      | (k, HVal.vundef), hs => cases hs
      | (k, HVal.vfn r), hs => cases hs
    · intro h
      cases h with
      | here hmem hlen =>
        exact ⟨("text", HVal.vstr s), hmem, by simp [hlen]⟩
  | succ d ih =>
    intro v s
    rw [ftpAux_succ, List.mem_flatMap]
    constructor
    · rintro ⟨kv, hkv, hs⟩
      match kv, hs with
      | (k, HVal.vstr t), hs =>
        by_cases hc : k = "text" ∧ jsLength (jsTrim t) > 10
        · simp only [if_pos hc] at hs
          obtain rfl := List.mem_singleton.mp hs
          obtain ⟨rfl, hlen⟩ := hc
          exact TextWithinDepth.here hkv hlen
        · simp only [if_neg hc] at hs
          cases hs
      | (k, HVal.vobj id), hs =>
        exact TextWithinDepth.stepObj hkv ((ih (HVal.vobj id) s).mp hs)
      | (k, HVal.varr id), hs =>
        exact TextWithinDepth.stepArr hkv ((ih (HVal.varr id) s).mp hs)
      | (k, HVal.vnum n), hs => cases hs
      | (k, HVal.vbool b), hs => cases hs
      | (k, HVal.vnull), hs => cases hs
      | (k, HVal.vundef), hs => cases hs
      | (k, HVal.vfn r), hs => cases hs
    · intro h
      cases h with
      | here hmem hlen =>
        exact ⟨("text", HVal.vstr s), hmem, by simp [hlen]⟩
      | stepObj hmem h =>
        exact ⟨(_, HVal.vobj _), hmem, (ih _ s).mpr h⟩
      | stepArr hmem h =>
        exact ⟨(_, HVal.varr _), hmem, (ih _ s).mpr h⟩

/-- A cyclic object graph: node 0 holds a reference to itself, a long `text`
string and a reference to node 1, whose `text` string is too short to
collect; node 2 is a root that only wraps node 0. -/
def c9Heap : Heap :=
  { objFields := fun i =>
      if i = 0 then
        [("self", HVal.vobj 0),
         ("text", HVal.vstr ("a deep and meaningful answer")),
         ("x", HVal.vobj 1)]
      else if i = 1 then [("text", HVal.vstr ("short"))]
      else if i = 2 then [("wrapper", HVal.vobj 0)]
      else []
    arrElems := fun _ => []
    nextId := 3 }

/-- The same graph without the cycle: node 0 keeps its long `text` string
and its reference to node 1, but no longer references itself. -/
def c9HeapA : Heap :=
  { objFields := fun i =>
      if i = 0 then
        [("text", HVal.vstr ("a deep and meaningful answer")),
         ("x", HVal.vobj 1)]
      else if i = 1 then [("text", HVal.vstr ("short"))]
      else if i = 2 then [("wrapper", HVal.vobj 0)]
      else []
    arrElems := fun _ => []
    nextId := 3 }

/-- C9 counterexample: on a cyclic response the scan itself is total and
exact, but the caller never concatenates its matches — the
`JSON.stringify(response, null, 2)` logging line at the top of
`extractMainContent`'s `try` throws on the cycle, and the catch returns
`Error extracting content from response` instead. -/
theorem c9_counterexample :
    jsonStringifyThrows c9Heap (HVal.vobj 2) = true ∧
    extractMainContent c9Heap (HVal.vobj 2) =
      "Error extracting content from response" ∧
    findTextProperties c9Heap (HVal.vobj 2) 3 0 =
      ["a deep and meaningful answer", "a deep and meaningful answer",
       "a deep and meaningful answer"] ∧
    extractMainContent c9Heap (HVal.vobj 2) ≠
      jsJoin ("\n\n") (findTextProperties c9Heap (HVal.vobj 2) 3 0) := by
  decide

/-- C9 amended: the bounded scan is total on every heap — including cyclic
object graphs — because each recursive step consumes one unit of the depth
budget; with the default bound it collects exactly the `text`-named string
fields of trimmed length above 10 within three levels of indirection, and
the guard returns `[]` whenever `currentDepth` exceeds `maxDepth`.  The
caller's last-resort branch concatenates the collected texts with blank
lines only for responses whose initial `JSON.stringify` logging call does
not throw; a cyclic response makes that call throw first, so the catch
returns `Error extracting content from response` and the scan is never
invoked. -/
theorem c9_find_text_properties (H : Heap) :
    (∀ v s, s ∈ findTextProperties H v 3 0 ↔ TextWithinDepth H v 3 s) ∧
    (∀ (v : HVal) (m c : Nat), c > m → findTextProperties H v m c = []) ∧
    (∀ id, jsonStringifyThrows H (HVal.vobj id) = false →
      (H.objFields id).lookup ("text") = none →
      jsGtZero (H.getField (H.getField (HVal.vobj id) "candidates")
        "length") = false →
      extractMainContent H (HVal.vobj id) =
        (if (findTextProperties H (HVal.vobj id) 3 0).length > 0 then
          jsJoin ("\n\n") (findTextProperties H (HVal.vobj id) 3 0)
        else "No content found in response")) ∧
    (∀ v, jsonStringifyThrows H v = true →
      extractMainContent H v = "Error extracting content from response") := by
  refine ⟨?_, ?_, ?_, ?_⟩
  · intro v s
    exact mem_ftpAux H 3 v s
  · intro v m c h
    unfold findTextProperties
    have hz : m + 1 - c = 0 := by omega
    rw [hz, ftpAux_zero]
  · intro id hc h1 h2
    have ht : H.getField (HVal.vobj id) ("text") = HVal.vundef := by
      simp [Heap.getField, h1]
    simp only [extractMainContent, extractMainContentRest, hc, ht, h2]
    simp
  · intro v h
    simp only [extractMainContent, h, if_true]

theorem c9_find_text_properties_witness :
    extractMainContent c9HeapA (HVal.vobj 2) =
      jsJoin ("\n\n") (findTextProperties c9HeapA (HVal.vobj 2) 3 0) ∧
    findTextProperties c9HeapA (HVal.vobj 2) 3 0 =
      ["a deep and meaningful answer"] ∧
    ("a deep and meaningful answer" ∈ findTextProperties c9Heap (HVal.vobj 2) 3 0 ↔
      TextWithinDepth c9Heap (HVal.vobj 2) 3 ("a deep and meaningful answer")) ∧
    findTextProperties c9Heap (HVal.vobj 2) 0 5 = [] ∧
    extractMainContent c9Heap (HVal.vobj 2) =
      "Error extracting content from response" := by
  refine ⟨?_, ?_, ?_, ?_, ?_⟩
  · rw [(c9_find_text_properties c9HeapA).2.2.1 2 (by decide) (by decide)
      (by decide)]
    rw [if_pos (by decide)]
  · decide
  · exact (c9_find_text_properties c9Heap).1 (HVal.vobj 2)
      ("a deep and meaningful answer")
  · exact (c9_find_text_properties c9Heap).2.1 (HVal.vobj 2) 0 5 (by decide)
  · exact (c9_find_text_properties c9Heap).2.2.2 (HVal.vobj 2) (by decide)

lemma envelope_content (H : Heap) (response : HVal) (mi ft : String)
    (bm cf : List (String × HVal)) :
    ∃ rest : String,
      (formatResponseEnvelope H response mi ft bm cf).content =
        [{ type := "text", text := mi ++ rest }] := by
  unfold formatResponseEnvelope
  dsimp only
  repeat' split
  all_goals exact ⟨_, rfl⟩

lemma models_id_self (k : String) :
    ((Config.MODELS.lookup k).getD
      { displayName := "Gemini API", id := k }).id = k := by
  by_cases h1 : k = "gemini-2.5-pro-preview-03-25"
  · subst h1; decide
  by_cases h2 : k = "gemini-2.5-flash-preview-04-17"
  · subst h2; decide
  by_cases h3 : k = "gemini-2.0-flash"
  · subst h3; decide
  by_cases h4 : k = "gemini-2.0-flash-lite"
  · subst h4; decide
  by_cases h5 : k = "gemini-1.5-pro"
  · subst h5; decide
  have e1 : (k == "gemini-2.5-pro-preview-03-25") = false :=
    beq_eq_false_iff_ne.mpr h1
  have e2 : (k == "gemini-2.5-flash-preview-04-17") = false :=
    beq_eq_false_iff_ne.mpr h2
  have e3 : (k == "gemini-2.0-flash") = false := beq_eq_false_iff_ne.mpr h3
  have e4 : (k == "gemini-2.0-flash-lite") = false := beq_eq_false_iff_ne.mpr h4
  have e5 : (k == "gemini-1.5-pro") = false := beq_eq_false_iff_ne.mpr h5
  simp [Config.MODELS, List.lookup, e1, e2, e3, e4, e5]

/-- C6: every tool result produced by `formatResponse` carries exactly one
text content block, whose text starts with the `**Model used: <id>**` banner;
the displayed id is the response's `modelUsed` field (the model that actually
generated the content, post-fallback) whenever that field is a non-empty
string, and falls back to the requested `modelId` when `modelUsed` is
absent. -/
theorem c6_model_banner (H : Heap) (response : HVal) (modelId : String)
    (options : ResponseOptions) (sdkResponse : HVal) :
    (∃ rest : String,
      (formatResponse H response modelId options sdkResponse).content =
        [{ type := "text",
           text := "**Model used: " ++
             (if truthy (H.getField response "modelUsed") then
               jsToDisplay H (H.getField response "modelUsed")
             else modelId) ++ "**\n\n" ++ rest }]) ∧
    (∀ s, H.getField response "modelUsed" = HVal.vstr s → s ≠ "" →
      ∃ rest : String,
        (formatResponse H response modelId options sdkResponse).content =
          [{ type := "text",
             text := "**Model used: " ++ s ++ "**\n\n" ++ rest }]) ∧
    (H.getField response "modelUsed" = HVal.vundef →
      ∃ rest : String,
        (formatResponse H response modelId options sdkResponse).content =
          [{ type := "text",
             text := "**Model used: " ++ modelId ++ "**\n\n" ++ rest }]) := by
  have h1 : ∃ rest : String,
      (formatResponse H response modelId options sdkResponse).content =
        [{ type := "text",
           text := "**Model used: " ++
             (if truthy (H.getField response "modelUsed") then
               jsToDisplay H (H.getField response "modelUsed")
             else modelId) ++ "**\n\n" ++ rest }] := by
    simp only [formatResponse]
    rw [models_id_self]
    exact envelope_content _ _ _ _ _ _
  refine ⟨h1, ?_, ?_⟩
  · intro s hs hne
    obtain ⟨rest, h⟩ := h1
    refine ⟨rest, ?_⟩
    have hd : jsToDisplay H (HVal.vstr s) = s := rfl
    have htr : truthy (HVal.vstr s) = true := by simp [truthy, hne]
    rw [h, hs, htr, if_pos rfl, hd]
  · intro hs
    obtain ⟨rest, h⟩ := h1
    refine ⟨rest, ?_⟩
    have htr : truthy HVal.vundef = false := rfl
    rw [h, hs, htr, if_neg (by decide : ¬ (false = true))]

/-- A heap whose object 0 is a transformed response carrying the `modelUsed`
stamp set by the execution engine after a fallback, and whose object 1 is a
response without one. -/
def c6Heap : Heap :=
  { objFields := fun i =>
      if i = 0 then [("modelUsed", HVal.vstr ("gemini-2.5-flash-preview-04-17"))]
      else []
    arrElems := fun _ => []
    nextId := 2 }

theorem c6_model_banner_witness :
    (∃ rest : String,
      (formatResponse c6Heap (HVal.vobj 0) ("gemini-2.5-pro-preview-03-25")
        {} HVal.vundef).content =
        [{ type := "text",
           text := "**Model used: " ++ "gemini-2.5-flash-preview-04-17" ++
             "**\n\n" ++ rest }]) ∧
    (∃ rest : String,
      (formatResponse c6Heap (HVal.vobj 1) ("gemini-2.5-pro-preview-03-25")
        {} HVal.vundef).content =
        [{ type := "text",
           text := "**Model used: " ++ "gemini-2.5-pro-preview-03-25" ++
             "**\n\n" ++ rest }]) := by
  constructor
  · exact (c6_model_banner c6Heap (HVal.vobj 0) ("gemini-2.5-pro-preview-03-25")
      {} HVal.vundef).2.1 ("gemini-2.5-flash-preview-04-17") (by decide)
      (by decide)
  · exact (c6_model_banner c6Heap (HVal.vobj 1) ("gemini-2.5-pro-preview-03-25")
      {} HVal.vundef).2.2 (by decide)

lemma fallback_ne_empty (rt0 : String) :
    (if rt0 = "" then "[Unable to extract text from response]" else rt0) ≠ "" := by
  split
  · decide
  · assumption

lemma strAppend_ne_empty (a b : String) (h : a.data ≠ []) : a ++ b ≠ "" := by
  intro he
  have hd : a.data ++ b.data = ([] : List Char) := by
    have := congrArg String.data he
    rwa [String.data_append] at this
  exact h (List.append_eq_nil.mp hd).1

lemma buildInternalResponse_reads (H : Heap) (rt : String) (bb : HVal)
    (gm : Option HVal) :
    jsGtZero ((buildInternalResponse H rt bb gm).1.getField
      ((buildInternalResponse H rt bb gm).1.getField
        (buildInternalResponse H rt bb gm).2 "candidates") "length") = true ∧
    (buildInternalResponse H rt bb gm).1.getField
      ((buildInternalResponse H rt bb gm).1.getIndex
        ((buildInternalResponse H rt bb gm).1.getField
          ((buildInternalResponse H rt bb gm).1.getField
            ((buildInternalResponse H rt bb gm).1.getIndex
              ((buildInternalResponse H rt bb gm).1.getField
                (buildInternalResponse H rt bb gm).2 "candidates") 0)
            "content") "parts") 0) "text" = HVal.vstr rt := by
  unfold buildInternalResponse
  dsimp only [Heap.allocObj, Heap.allocArr]
  repeat' split
  all_goals constructor
  all_goals simp +arith [Heap.getField, Heap.getIndex, List.lookup, jsGtZero]

/-- C10: `transformFromSdkResponse` is total on arbitrary raw SDK response
values: every result has at least one candidate whose
`content.parts[0].text` is a non-empty string; an absent raw response or a
missing `text` accessor is absorbed into the bracketed
`[Unable to extract text from response]` part, and a throwing `text()` call
into a bracketed `[Error extracting text: ...]` part, instead of propagating
an exception. -/
theorem c10_transform_total (H : Heap) (raw : HVal) :
    ∃ s : String,
      jsGtZero ((transformFromSdkResponse H raw).1.getField
        ((transformFromSdkResponse H raw).1.getField
          (transformFromSdkResponse H raw).2 "candidates") "length") = true ∧
      (transformFromSdkResponse H raw).1.getField
        ((transformFromSdkResponse H raw).1.getIndex
          ((transformFromSdkResponse H raw).1.getField
            ((transformFromSdkResponse H raw).1.getField
              ((transformFromSdkResponse H raw).1.getIndex
                ((transformFromSdkResponse H raw).1.getField
                  (transformFromSdkResponse H raw).2 "candidates") 0)
              "content") "parts") 0) "text" = HVal.vstr s ∧
      s ≠ "" ∧
      (truthy raw = false → s = "[Unable to extract text from response]") ∧
      (H.getField raw "text" = HVal.vundef →
        s = "[Unable to extract text from response]") ∧
      (∀ m, truthy raw = true →
        H.getField raw "text" = HVal.vfn (FnRet.fnThrow m) →
        s = "[Error extracting text: " ++ m ++ "]") := by
  simp only [transformFromSdkResponse]
  refine ⟨_, (buildInternalResponse_reads H _ _ _).1,
    (buildInternalResponse_reads H _ _ _).2, ?_, ?_, ?_, ?_⟩
  · exact fallback_ne_empty _
  · intro h
    simp [h]
  · intro h
    simp [h]
  · intro m htr hth
    have hne : ("[Error extracting text: " ++ m ++ "]") ≠ "" := by
      refine strAppend_ne_empty _ _ ?_
      rw [String.data_append]
      intro hx
      exact absurd (List.append_eq_nil.mp hx).1 (by decide)
    simp [htr, hth, hne]

/-- A heap whose object 0 is a raw SDK response with a throwing `text()`
accessor. -/
def c10Heap : Heap :=
  { objFields := fun i =>
      if i = 0 then [("text", HVal.vfn (FnRet.fnThrow ("boom")))] else []
    arrElems := fun _ => []
    nextId := 1 }

theorem c10_transform_total_witness :
    (∃ s : String,
      jsGtZero ((transformFromSdkResponse c10Heap (HVal.vobj 0)).1.getField
        ((transformFromSdkResponse c10Heap (HVal.vobj 0)).1.getField
          (transformFromSdkResponse c10Heap (HVal.vobj 0)).2 "candidates")
        "length") = true ∧
      s = "[Error extracting text: " ++ "boom" ++ "]") ∧
    (∃ t : String,
      (transformFromSdkResponse c10Heap HVal.vundef).1.getField
        ((transformFromSdkResponse c10Heap HVal.vundef).1.getIndex
          ((transformFromSdkResponse c10Heap HVal.vundef).1.getField
            ((transformFromSdkResponse c10Heap HVal.vundef).1.getField
              ((transformFromSdkResponse c10Heap HVal.vundef).1.getIndex
                ((transformFromSdkResponse c10Heap HVal.vundef).1.getField
                  (transformFromSdkResponse c10Heap HVal.vundef).2 "candidates")
                0) "content") "parts") 0) "text" = HVal.vstr t ∧
      t = "[Unable to extract text from response]") := by
  constructor
  · obtain ⟨s, h1, h2, h3, h4, h5, h6⟩ :=
      c10_transform_total c10Heap (HVal.vobj 0)
    exact ⟨s, h1, h6 ("boom") (by decide) (by decide)⟩
  · obtain ⟨t, h1, h2, h3, h4, h5, h6⟩ :=
      c10_transform_total c10Heap HVal.vundef
    exact ⟨t, h2, h4 (by decide)⟩

end GemForge
